import Mathlib

/-!
Verification development for the caic.xyz waitlist backend
(session-token codec, OAuth callback controller, access-control gate,
submission store and HTTP router).

JavaScript strings are modelled as lists of UTF-16 code units
(`JStr := List Nat`).  Platform built-ins (`btoa`, `atob`,
`JSON.stringify`/`JSON.parse` of the fixed session-payload shape,
cookie parsing) are given executable models below; the HMAC-SHA256
primitive (`crypto.subtle`) is treated as an arbitrary deterministic
function parameter, since every property proved here holds for every
such function.
-/

namespace Caic

/-- A JavaScript string: a list of UTF-16 code units. -/
abbrev JStr := List Nat

/-- Embed a Lean string literal as a `JStr`. -/
def jstr (s : String) : JStr := s.toList.map Char.toNat

/-! ### Base64 (models of the `btoa` / `atob` platform built-ins) -/

/-- The standard base64 alphabet, as code units. -/
def b64alphabet : JStr :=
  jstr "ABCDEFGHIJKLMNOPQRSTUVWXYZabcdefghijklmnopqrstuvwxyz0123456789+/"

/-- Code unit for a 6-bit group (0–63). -/
def b64char (n : Nat) : Nat := b64alphabet.getD n 0

/-- Inverse alphabet lookup used by decoding. -/
def b64dec (c : Nat) : Option Nat :=
  (List.range 64).find? (fun n => b64char n == c)

/-- Base64-encode a byte list (standard padding). -/
def b64encode : List Nat → List Nat
  | [] => []
  | [b1] => [b64char (b1 / 4), b64char (b1 % 4 * 16), 61, 61]
  | [b1, b2] =>
      [b64char (b1 / 4), b64char (b1 % 4 * 16 + b2 / 16), b64char (b2 % 16 * 4), 61]
  | b1 :: b2 :: b3 :: rest =>
      b64char (b1 / 4) :: b64char (b1 % 4 * 16 + b2 / 16) ::
      b64char (b2 % 16 * 4 + b3 / 64) :: b64char (b3 % 64) :: b64encode rest

/-- The padding-free base64 encoding of a byte list (what remains of
`b64encode` after the forgiving decoder strips the `=` padding). -/
def b64encodeNP : List Nat → List Nat
  | [] => []
  | [b1] => [b64char (b1 / 4), b64char (b1 % 4 * 16)]
  | [b1, b2] =>
      [b64char (b1 / 4), b64char (b1 % 4 * 16 + b2 / 16), b64char (b2 % 16 * 4)]
  | b1 :: b2 :: b3 :: rest =>
      b64char (b1 / 4) :: b64char (b1 % 4 * 16 + b2 / 16) ::
      b64char (b2 % 16 * 4 + b3 / 64) :: b64char (b3 % 64) :: b64encodeNP rest

/-- The `=` padding `b64encode` appends, by input length. -/
def b64pad (l : List Nat) : List Nat :=
  match l.length % 3 with
  | 1 => [61, 61]
  | 2 => [61]
  | _ => []

/-- ASCII whitespace, which forgiving-base64 removes. -/
def isB64Ws (c : Nat) : Bool := c == 9 || c == 10 || c == 12 || c == 13 || c == 32

def b64strip (s : JStr) : JStr := s.filter (fun c => !isB64Ws c)

/-- Forgiving-base64 padding removal: one or two trailing `=` are
dropped when the length is a multiple of four. -/
def b64unpad (t : JStr) : JStr :=
  if t.length % 4 = 0 then
    match t.reverse with
    | 61 :: 61 :: r => r.reverse
    | 61 :: r => r.reverse
    | _ => t
  else t

/-- Map every character to its 6-bit value; fails on a character
outside the alphabet (including stray `=`). -/
def sextets : JStr → Option (List Nat)
  | [] => some []
  | c :: rest =>
    match b64dec c with
    | none => none
    | some v => (sextets rest).map (fun vs => v :: vs)

/-- Reassemble bytes from 6-bit groups; a trailing group of two or
three sextets yields one or two bytes, leftover bits discarded. -/
def sextetsToBytes : List Nat → Option (List Nat)
  | [] => some []
  | [_] => none
  | [s1, s2] => some [s1 * 4 + s2 / 16]
  | [s1, s2, s3] => some [s1 * 4 + s2 / 16, s2 % 16 * 16 + s3 / 4]
  | s1 :: s2 :: s3 :: s4 :: rest =>
      (sextetsToBytes rest).map
        (fun bs => (s1 * 4 + s2 / 16) :: (s2 % 16 * 16 + s3 / 4) ::
                   (s3 % 4 * 64 + s4) :: bs)

/-- Forgiving-base64 decode (the WHATWG algorithm `atob` implements):
strip ASCII whitespace, drop canonical trailing padding, reject a
length of 1 mod 4 and any character outside the alphabet. -/
def b64decode (s : JStr) : Option (List Nat) :=
  if (b64unpad (b64strip s)).length % 4 = 1 then none
  else
    match sextets (b64unpad (b64strip s)) with
    | none => none
    | some vs => sextetsToBytes vs

/-- `btoa`: fails (throws in JS) when a code unit exceeds 255. -/
def btoaJ (s : JStr) : Option JStr :=
  if s.all (fun c => c < 256) then some (b64encode s) else none

/-- `atob`: forgiving-base64 decode. -/
def atobJ (s : JStr) : Option JStr := b64decode s

/-! ### Decimal digits (model of number serialization in `JSON.stringify`
and of `parseInt(s, 10)` on digit strings) -/

/-- Decimal representation, fuel-indexed so the definition is
structurally recursive (and hence evaluates inside the kernel). -/
def natDigitsAux : Nat → Nat → JStr
  | 0, _ => []
  | fuel + 1, n =>
    if n < 10 then [48 + n] else natDigitsAux fuel (n / 10) ++ [48 + n % 10]

/-- Decimal representation of a natural number, as code units. -/
def natDigits (n : Nat) : JStr := natDigitsAux (n + 1) n

def isDigit (c : Nat) : Bool := 48 ≤ c && c ≤ 57

/-- Split off the maximal leading run of decimal digits. -/
def takeDigits : JStr → (JStr × JStr)
  | [] => ([], [])
  | c :: rest =>
    if isDigit c then
      let p := takeDigits rest
      (c :: p.1, p.2)
    else ([], c :: rest)

/-- Numeric value of a digit string (the value `parseInt(s, 10)` produces). -/
def digitsVal (ds : JStr) : Nat := ds.foldl (fun acc c => acc * 10 + (c - 48)) 0

/-! ### JSON string escaping (model of `JSON.stringify` on strings and of
`JSON.parse` on the session-payload shape) -/

/-- Lowercase hex digit code unit. -/
def hexDigitChar (n : Nat) : Nat := if n < 10 then 48 + n else 87 + n

/-- Value of a hex digit code unit. -/
def hexVal (c : Nat) : Option Nat :=
  if 48 ≤ c ∧ c ≤ 57 then some (c - 48)
  else if 97 ≤ c ∧ c ≤ 102 then some (c - 87)
  else if 65 ≤ c ∧ c ≤ 70 then some (c - 55)
  else none

/-- How `JSON.stringify` escapes one code unit inside a string literal. -/
def escapeChar (c : Nat) : JStr :=
  if c = 34 then [92, 34]
  else if c = 92 then [92, 92]
  else if c = 8 then [92, 98]
  else if c = 9 then [92, 116]
  else if c = 10 then [92, 110]
  else if c = 12 then [92, 102]
  else if c = 13 then [92, 114]
  else if c < 32 then [92, 117, 48, 48, hexDigitChar (c / 16), hexDigitChar (c % 16)]
  else [c]

def escapeStr : JStr → JStr
  | [] => []
  | c :: rest => escapeChar c ++ escapeStr rest

/-- Unescape a single-character JSON escape sequence. -/
def unescapeChar (e : Nat) : Option Nat :=
  if e = 34 then some 34
  else if e = 92 then some 92
  else if e = 47 then some 47
  else if e = 98 then some 8
  else if e = 116 then some 9
  else if e = 110 then some 10
  else if e = 102 then some 12
  else if e = 114 then some 13
  else none

/-- Parse a JSON string body up to its closing quote; returns the decoded
string and the remaining input. -/
def parseJsonString : JStr → Option (JStr × JStr)
  | [] => none
  | c :: rest =>
    if c = 34 then some ([], rest)
    else if c = 92 then
      match rest with
      | [] => none
      | e :: rest2 =>
        if e = 117 then
          match rest2 with
          | h1 :: h2 :: h3 :: h4 :: rest3 =>
            match hexVal h1, hexVal h2, hexVal h3, hexVal h4 with
            | some a, some b, some c4, some d =>
                (parseJsonString rest3).map
                  (fun p => ((a * 4096 + b * 256 + c4 * 16 + d) :: p.1, p.2))
            | _, _, _, _ => none
          | _ => none
        else
          match unescapeChar e with
          | some u => (parseJsonString rest2).map (fun p => (u :: p.1, p.2))
          | none => none
    else (parseJsonString rest).map (fun p => (c :: p.1, p.2))

/-! ### Session payload codec

`signSession` serializes `JSON.stringify({ email, exp })`; `parseSession`
recovers the fields with `JSON.parse`.  `mkPayload` is the exact
serialization; `parsePayload` is the restriction of the payload reader
to the canonical serialized shape, adequate for the tokens the system
itself mints (the mint/verify round trip).  The full `JSON.parse` and
destructuring semantics over arbitrary payloads — needed to
characterize verification failure — is `parseSessionFull` below. -/

def stripPrefixJ : JStr → JStr → Option JStr
  | [], s => some s
  | _ :: _, [] => none
  | p :: ps, c :: cs => if c = p then stripPrefixJ ps cs else none

/-- `JSON.stringify({ email, exp })` with `email` a string and `exp` a
natural number: property order follows the object literal. -/
def mkPayload (email : JStr) (exp : Nat) : JStr :=
  jstr "\x7b\"email\":\"" ++ escapeStr email ++ jstr "\",\"exp\":" ++
    natDigits exp ++ jstr "\x7d"

/-- `JSON.parse(payload)` destructured as `{ email, exp }`, restricted
to the canonical payload shape (the payloads `signSession` emits).
Known stricter than the code on non-canonical payloads: the faithful
semantics is `jsonParse`/`parseSessionFull` below. -/
def parsePayload (s : JStr) : Option (JStr × Nat) :=
  match stripPrefixJ (jstr "\x7b\"email\":\"") s with
  | none => none
  | some s1 =>
    match parseJsonString s1 with
    | none => none
    | some (email, s2) =>
      match stripPrefixJ (jstr ",\"exp\":") s2 with
      | none => none
      | some s3 =>
        match takeDigits s3 with
        | ([], _) => none
        | (ds, s4) => if s4 = jstr "\x7d" then some (email, digitsVal ds) else none

/-! ### Signed session token codec (from `src/src/auth.ts`)

The HMAC-SHA256 primitive (`hmacSign`, via `crypto.subtle`) is passed in
as an arbitrary function `hmac : payload → secret → signature`; the code
compares the recomputed signature for exact equality (`hmacVerify`). -/

def SESSION_MAX_AGE : Nat := 86400

/-- `signSession(email, secret)` at clock `now` (seconds since epoch):
`btoa(JSON.stringify({email, exp})) + "." + hmacSign(payload, secret)`.
Returns `none` when `btoa` throws (a code unit above 255). -/
def signSession (hmac : JStr → JStr → JStr) (email secret : JStr) (now : Nat) :
    Option JStr :=
  match btoaJ (mkPayload email (now + SESSION_MAX_AGE)) with
  | none => none
  | some p64 => some (p64 ++ 46 :: hmac (mkPayload email (now + SESSION_MAX_AGE)) secret)

/-- `cookie.indexOf(".")` plus the two `slice` calls: split at the first
dot; `none` when no dot occurs. -/
def splitFirstDot : JStr → Option (JStr × JStr)
  | [] => none
  | c :: rest =>
    if c = 46 then some ([], rest)
    else (splitFirstDot rest).map (fun p => (c :: p.1, p.2))

/-- `parseSession(cookie, secret)` at clock `now`: returns the embedded
email, or `none` on any failure (the function never throws).  This is
the TypeScript-typed view over canonical payloads; `parseSessionFull`
below is the same function under the full JS payload semantics. -/
def parseSession (hmac : JStr → JStr → JStr) (cookie secret : JStr) (now : Nat) :
    Option JStr :=
  match splitFirstDot cookie with
  | none => none
  | some (p64, sig) =>
    match atobJ p64 with
    | none => none
    | some payload =>
      if hmac payload secret = sig then
        match parsePayload payload with
        | none => none
        | some (email, exp) => if exp < now then none else some email
      else none

/-! ### Full JavaScript payload semantics

`parsePayload` above accepts only the canonical payload shape the
system itself mints, which suffices for the mint/verify round trip.
The code, however, runs `const { email, exp } = JSON.parse(payload)`:
any JSON document parses, destructuring throws only on `null`, a
missing `exp` compares as `undefined < now = false` (the token never
expires), and `email` may be absent or any JSON value.  The definitions
below model that full semantics: a complete JSON parser, the JS
relational comparison `exp < now` (with its `ToPrimitive`/`ToNumber`
coercions), and `parseSessionFull`, the faithful embedding of
`parseSession`.  JSON numbers are kept as exact decimal values
`m / 10^s`; IEEE-double rounding of extreme literals is the one
platform aspect not modelled. -/

/-- A JSON value.  Object fields keep every parsed pair in order;
property access takes the last binding, as `JSON.parse` overwrites
duplicate keys. -/
inductive JsonVal where
  | null : JsonVal
  | bool : Bool → JsonVal
  | num : Int → Nat → JsonVal
  | str : JStr → JsonVal
  | arr : List JsonVal → JsonVal
  | obj : List (JStr × JsonVal) → JsonVal

/-- JSON whitespace (space, tab, LF, CR). -/
def isJsonWs (c : Nat) : Bool := c == 32 || c == 9 || c == 10 || c == 13

def skipJsonWs : JStr → JStr
  | [] => []
  | c :: rest => if isJsonWs c then skipJsonWs rest else c :: rest

/-- Assemble a JSON number from sign, integer part, fraction digits and
decimal exponent, as the exact value `m / 10^s`. -/
def mkJsonNum (neg : Bool) (ip : Nat) (frac : JStr) (e : Int) : JsonVal :=
  let m0 : Int := (ip : Int) * (10 : Int) ^ frac.length + (digitsVal frac : Int)
  let m : Int := if neg then -m0 else m0
  let net : Int := e - (frac.length : Int)
  if 0 ≤ net then JsonVal.num (m * (10 : Int) ^ net.toNat) 0
  else JsonVal.num m (-net).toNat

/-- JSON number grammar after the optional sign and integer part:
optional fraction, optional exponent. -/
def jsonNumTail (neg : Bool) (ip : Nat) (s : JStr) : Option (JsonVal × JStr) :=
  match s with
  | 46 :: r =>
    (match takeDigits r with
     | ([], _) => none
     | (frac, r2) => jsonNumExp neg ip frac r2)
  | _ => jsonNumExp neg ip [] s
where
  jsonNumExp (neg : Bool) (ip : Nat) (frac : JStr) (s : JStr) : Option (JsonVal × JStr) :=
    match s with
    | c :: r =>
      if c = 101 ∨ c = 69 then
        match r with
        | 43 :: r2 =>
          (match takeDigits r2 with
           | ([], _) => none
           | (eds, r3) => some (mkJsonNum neg ip frac (digitsVal eds), r3))
        | 45 :: r2 =>
          (match takeDigits r2 with
           | ([], _) => none
           | (eds, r3) => some (mkJsonNum neg ip frac (-(digitsVal eds : Int)), r3))
        | r2 =>
          (match takeDigits r2 with
           | ([], _) => none
           | (eds, r3) => some (mkJsonNum neg ip frac (digitsVal eds), r3))
      else some (mkJsonNum neg ip frac 0, c :: r)
    | [] => some (mkJsonNum neg ip frac 0, [])

/-- JSON number grammar: `-? int frac? exp?`.  A literal `0` followed
by more digits leaves the extra digits unconsumed, which the caller
then rejects — matching `JSON.parse` refusing leading zeros. -/
def jsonNum (s : JStr) : Option (JsonVal × JStr) :=
  match s with
  | 45 :: s1 => jsonNumBody true s1
  | s1 => jsonNumBody false s1
where
  jsonNumBody (neg : Bool) (s1 : JStr) : Option (JsonVal × JStr) :=
    match s1 with
    | 48 :: r1 => jsonNumTail neg 0 r1
    | c :: r1 =>
      if isDigit c then
        match takeDigits (c :: r1) with
        | (ds, r2) => jsonNumTail neg (digitsVal ds) r2
      else none
    | [] => none

mutual
def jsonParseV : Nat → JStr → Option (JsonVal × JStr)
  | 0, _ => none
  | fuel + 1, s =>
    match skipJsonWs s with
    | [] => none
    | c :: rest =>
      if c = 34 then
        (parseJsonString rest).map (fun p => (JsonVal.str p.1, p.2))
      else if c = 91 then
        match skipJsonWs rest with
        | 93 :: rest2 => some (JsonVal.arr [], rest2)
        | rest2 => (jsonParseElems fuel rest2).map (fun p => (JsonVal.arr p.1, p.2))
      else if c = 123 then
        match skipJsonWs rest with
        | 125 :: rest2 => some (JsonVal.obj [], rest2)
        | rest2 => (jsonParseFields fuel rest2).map (fun p => (JsonVal.obj p.1, p.2))
      else if c = 116 then
        match rest with
        | 114 :: 117 :: 101 :: r => some (JsonVal.bool true, r)
        | _ => none
      else if c = 102 then
        match rest with
        | 97 :: 108 :: 115 :: 101 :: r => some (JsonVal.bool false, r)
        | _ => none
      else if c = 110 then
        match rest with
        | 117 :: 108 :: 108 :: r => some (JsonVal.null, r)
        | _ => none
      else jsonNum (c :: rest)
def jsonParseElems : Nat → JStr → Option (List JsonVal × JStr)
  | 0, _ => none
  | fuel + 1, s =>
    match jsonParseV fuel s with
    | none => none
    | some (v, rest) =>
      match skipJsonWs rest with
      | 44 :: rest2 => (jsonParseElems fuel rest2).map (fun p => (v :: p.1, p.2))
      | 93 :: rest2 => some ([v], rest2)
      | _ => none
def jsonParseFields : Nat → JStr → Option (List (JStr × JsonVal) × JStr)
  | 0, _ => none
  | fuel + 1, s =>
    match skipJsonWs s with
    | 34 :: rest =>
      (match parseJsonString rest with
       | none => none
       | some (k, rest2) =>
         match skipJsonWs rest2 with
         | 58 :: rest3 =>
           (match jsonParseV fuel rest3 with
            | none => none
            | some (v, rest4) =>
              match skipJsonWs rest4 with
              | 44 :: rest5 => (jsonParseFields fuel rest5).map (fun p => ((k, v) :: p.1, p.2))
              | 125 :: rest5 => some ([(k, v)], rest5)
              | _ => none)
         | _ => none)
    | _ => none
end

/-- Canonical decimal text of the exact value `m / 10^s` (the
`ToString` JS applies to numbers inside `Array.prototype.join`;
exponential formatting of extreme magnitudes is not modelled). -/
def numToString (m : Int) (s : Nat) : JStr :=
  numToStringGo m s
where
  numToStringGo : Int → Nat → JStr
    | m, 0 => (if m < 0 then [45] else []) ++ natDigits m.natAbs
    | m, k + 1 =>
      if m % 10 = 0 then numToStringGo (m / 10) k
      else
        let a := m.natAbs
        let ip := a / 10 ^ (k + 1)
        let fp := a % 10 ^ (k + 1)
        (if m < 0 then [45] else []) ++ natDigits ip ++ 46 ::
          (List.replicate (k + 1 - (natDigits fp).length) 48 ++ natDigits fp)

mutual
/-- `ToString` of a JSON value as an element of `Array.prototype.join`
(`null` renders empty, objects render `[object Object]`). -/
def jsElemToString : JsonVal → JStr
  | JsonVal.null => []
  | JsonVal.bool true => jstr "true"
  | JsonVal.bool false => jstr "false"
  | JsonVal.num m s => numToString m s
  | JsonVal.str s => s
  | JsonVal.obj _ => jstr "[object Object]"
  | JsonVal.arr xs => jsElemsJoin xs
def jsElemsJoin : List JsonVal → JStr
  | [] => []
  | [x] => jsElemToString x
  | x :: rest => jsElemToString x ++ 44 :: jsElemsJoin rest
end

/-- `String.split` on a single-character separator (JS semantics:
the empty string splits to `[""]`). -/
def splitChar (sep : Nat) : JStr → List JStr
  | [] => [[]]
  | c :: rest =>
    let r := splitChar sep rest
    if c = sep then [] :: r
    else
      match r with
      | [] => [[c]]
      | h :: t => (c :: h) :: t

/-- JS `String.trim` whitespace test (the code units that occur in
cookie headers and the allowlist string). -/
def isWsp (c : Nat) : Bool := c == 32 || c == 9 || c == 10 || c == 13 || c == 11 || c == 12

/-- JS `String.trim`. -/
def trimJ (s : JStr) : JStr := ((s.dropWhile isWsp).reverse.dropWhile isWsp).reverse

/-- `Array.prototype.join` with a single-character separator. -/
def joinWith (sep : Nat) : List JStr → JStr
  | [] => []
  | [s] => s
  | s :: rest => s ++ sep :: joinWith sep rest

/-- One `part.split("=")` entry of the cookie header: returns the value
when the trimmed key equals `name`. -/
def cookieEntry (name part : JStr) : Option JStr :=
  match splitChar 61 part with
  | [] => none
  | k :: rest => if trimJ k = name then some (trimJ (joinWith 61 rest)) else none

/-- `getCookie(request, name)`: first `;`-separated part whose trimmed
key equals `name`. -/
def getCookie (header name : JStr) : Option JStr :=
  (splitChar 59 header).findSome? (cookieEntry name)

/-- `url.searchParams.get(name)`: first query parameter with that name. -/
def lookupQuery (q : List (JStr × JStr)) (name : JStr) : Option JStr :=
  (q.find? (fun kv => kv.1 == name)).map (fun kv => kv.2)

/-- JS falsiness of a string-or-undefined value (`!x` is true for
`undefined`, `null` and the empty string). -/
def jsFalsyOpt : Option JStr → Bool
  | none => true
  | some s => s.isEmpty

/-! ### Configuration, requests, responses -/

/-- The worker environment bindings the authentication core reads. -/
structure OAuthEnv where
  GOOGLE_CLIENT_ID : JStr
  GOOGLE_CLIENT_SECRET : JStr
  SESSION_SECRET : JStr
  ALLOWED_EMAILS : JStr
deriving DecidableEq

/-- An inbound HTTP request, with the URL already split into path,
query parameters and origin, and the `Cookie` header (empty list when
the header is absent, matching `headers.get("Cookie") ?? ""`). -/
structure JRequest where
  method : JStr
  path : JStr
  query : List (JStr × JStr)
  cookieHeader : JStr
  origin : JStr
deriving DecidableEq

/-- A stored waitlist submission row. -/
structure Submission where
  id : Nat
  email : JStr
  max_agents : Int
  pain : JStr
  pay : JStr
  target_platforms : JStr
  dev_os : JStr
  created_at : JStr
deriving DecidableEq

/-- Response body: JSON bodies and the admin HTML page. The HTML page
constructor carries the listed rows the rendered table displays; the
literal HTML template text is not reproduced. -/
inductive JBody where
  | empty : JBody
  | text : JStr → JBody
  | jsonOk : JBody
  | jsonErr : JStr → JBody
  | htmlPage : List Submission → JBody
deriving DecidableEq

structure JResponse where
  status : Nat
  headers : List (JStr × JStr)
  body : JBody
deriving DecidableEq

/-- `ALLOWED_EMAILS.split(",").map(e => e.trim())`. -/
def allowlist (env : OAuthEnv) : List JStr :=
  (splitChar 44 env.ALLOWED_EMAILS).map trimJ

/-- `verifySession(request, env)`: session cookie → `parseSession`. -/
def verifySession (hmac : JStr → JStr → JStr) (req : JRequest) (env : OAuthEnv)
    (now : Nat) : Option JStr :=
  match getCookie req.cookieHeader (jstr "session") with
  | none => none
  | some c => parseSession hmac c env.SESSION_SECRET now

/-! ### OAuth callback controller (from `handleCallback` in
`src/src/auth.ts`)

The outbound token-exchange `fetch` is an external call; its outcome is
an input.  The identity token arrives as its decoded payload claims
(`ok (some claims)`), `ok none` models a response without `id_token`,
and `httpError` a non-success exchange status. -/

/-- Claims decoded from the identity token payload. `email_verified` is
`false` when the claim is absent or not `true`. -/
structure IdClaims where
  email : Option JStr
  email_verified : Bool
deriving DecidableEq

inductive ProviderResult where
  | httpError : ProviderResult
  | ok : Option IdClaims → ProviderResult
deriving DecidableEq

/-- The `Set-Cookie` value for the session cookie on login success. -/
def sessionSetCookie (tok : JStr) : JStr :=
  jstr "session=" ++ tok ++ jstr "; HttpOnly; Secure; SameSite=Lax; Path=/; Max-Age=86400"

/-- The `Set-Cookie` value clearing the CSRF-state cookie. -/
def clearStateSetCookie : JStr :=
  jstr "oauth_state=; HttpOnly; Secure; SameSite=Lax; Path=/; Max-Age=0"

/-- Result of `handleCallback`, together with whether the token
exchange was reached. -/
structure CallbackOutcome where
  resp : JResponse
  exchanged : Bool
deriving DecidableEq

/-- `handleCallback(request, env)`. `none` models an uncaught exception
(only possible when `signSession` itself throws inside `btoa`). -/
def handleCallback (hmac : JStr → JStr → JStr) (req : JRequest) (env : OAuthEnv)
    (provider : ProviderResult) (now : Nat) : Option CallbackOutcome :=
  if jsFalsyOpt (lookupQuery req.query (jstr "code")) ||
     jsFalsyOpt (lookupQuery req.query (jstr "state")) ||
     (lookupQuery req.query (jstr "state") != getCookie req.cookieHeader (jstr "oauth_state")) then
    some ⟨⟨403, [], JBody.text (jstr "invalid oauth state")⟩, false⟩
  else
    match provider with
    | ProviderResult.httpError =>
        some ⟨⟨502, [], JBody.text (jstr "token exchange failed")⟩, true⟩
    | ProviderResult.ok none =>
        some ⟨⟨502, [], JBody.text (jstr "missing id_token")⟩, true⟩
    | ProviderResult.ok (some claims) =>
        if jsFalsyOpt claims.email || !claims.email_verified then
          some ⟨⟨403, [], JBody.text (jstr "email not verified")⟩, true⟩
        else if !(allowlist env).contains (claims.email.getD []) then
          some ⟨⟨403, [], JBody.text (jstr "forbidden: email not in allowlist")⟩, true⟩
        else
          match signSession hmac (claims.email.getD []) env.SESSION_SECRET now with
          | none => none
          | some tok =>
              some ⟨⟨302,
                [(jstr "Location", req.origin ++ jstr "/admin/waitlist"),
                 (jstr "Set-Cookie", sessionSetCookie tok),
                 (jstr "Set-Cookie", clearStateSetCookie)], JBody.empty⟩, true⟩

/-- Whether a response carries a `Set-Cookie` header establishing the
session cookie. -/
def setsSessionCookie (r : JResponse) : Bool :=
  r.headers.any (fun kv => kv.1 == jstr "Set-Cookie" && (jstr "session=").isPrefixOf kv.2)

/-! ### Login and logout (from `handleLogin`, `buildGoogleAuthUrl`,
`handleLogout` in `src/src/auth.ts`)

`crypto.randomUUID()` is an external source of randomness; the fresh
state value is an input.  `urlencodeJ` models `URLSearchParams`
serialization for code points below the surrogate range. -/

def hexUpper (n : Nat) : Nat := if n < 10 then 48 + n else 55 + n

def utf8Bytes (c : Nat) : List Nat :=
  if c < 128 then [c]
  else if c < 2048 then [192 + c / 64, 128 + c % 64]
  else [224 + c / 4096, 128 + c / 64 % 64, 128 + c % 64]

def isUrlSafe (c : Nat) : Bool :=
  (48 ≤ c && c ≤ 57) || (65 ≤ c && c ≤ 90) || (97 ≤ c && c ≤ 122) ||
    c == 42 || c == 45 || c == 46 || c == 95

def urlencodeJ (s : JStr) : JStr :=
  s.foldr
    (fun c acc =>
      (if c = 32 then [43]
       else if isUrlSafe c then [c]
       else (utf8Bytes c).foldr (fun b a => 37 :: hexUpper (b / 16) :: hexUpper (b % 16) :: a) [])
      ++ acc) []

def buildGoogleAuthUrl (env : OAuthEnv) (origin state : JStr) : JStr :=
  jstr "https://accounts.google.com/o/oauth2/v2/auth?client_id=" ++
    urlencodeJ env.GOOGLE_CLIENT_ID ++
    jstr "&redirect_uri=" ++ urlencodeJ (origin ++ jstr "/auth/callback") ++
    jstr "&response_type=code&scope=" ++ urlencodeJ (jstr "openid email") ++
    jstr "&state=" ++ urlencodeJ state ++
    jstr "&prompt=select_account"

/-- `handleLogin(env, origin)` with the freshly generated `state`. -/
def handleLogin (env : OAuthEnv) (origin state : JStr) : JResponse :=
  ⟨302,
   [(jstr "Location", buildGoogleAuthUrl env origin state),
    (jstr "Set-Cookie",
      jstr "oauth_state=" ++ state ++ jstr "; HttpOnly; Secure; SameSite=Lax; Path=/; Max-Age=600")],
   JBody.empty⟩

/-- `handleLogout()`. -/
def handleLogout : JResponse :=
  ⟨302,
   [(jstr "Location", jstr "/"),
    (jstr "Set-Cookie", jstr "session=; HttpOnly; Secure; SameSite=Lax; Path=/; Max-Age=0")],
   JBody.empty⟩

/-! ### Submission store (from `WaitlistDO` in the worker entry file)

The Durable Object runs single-threaded against a SQLite table with an
`AUTOINCREMENT` primary key; the post-migration table is modelled as the
insertion-ordered row list plus the next id to assign. -/

structure StoreState where
  nextId : Nat
  rows : List Submission
deriving DecidableEq

/-- `JSON.stringify` of a string array (used for the
`target_platforms` and `dev_os` columns). -/
def jsonArr (xs : List JStr) : JStr :=
  91 :: joinWith 44 (xs.map (fun s => 34 :: (escapeStr s ++ [34]))) ++ [93]

/-- `WaitlistDO.submit`: one `INSERT`; the store assigns the id and the
`created_at` timestamp (`datetime` of the current clock, `nowStr`). -/
def submitStore (st : StoreState) (email : JStr) (maxAgents : Int)
    (pain pay : JStr) (targetPlatforms devOs : List JStr) (nowStr : JStr) : StoreState :=
  { nextId := st.nextId + 1,
    rows := st.rows ++
      [⟨st.nextId, email, maxAgents, pain, pay, jsonArr targetPlatforms, jsonArr devOs, nowStr⟩] }

/-- `WaitlistDO.delete`: `DELETE FROM submissions WHERE id = ?`. -/
def deleteStore (st : StoreState) (id : Nat) : StoreState :=
  { st with rows := st.rows.filter (fun r => r.id != id) }

def insertDesc (r : Submission) : List Submission → List Submission
  | [] => [r]
  | y :: ys => if y.id ≤ r.id then r :: y :: ys else y :: insertDesc r ys

def sortDesc : List Submission → List Submission
  | [] => []
  | x :: xs => insertDesc x (sortDesc xs)

/-- `WaitlistDO.list`: `SELECT ... ORDER BY id DESC`. -/
def listStore (st : StoreState) : List Submission := sortDesc st.rows

/-! ### Request body model for `POST /api/waitlist`

`request.json()` produces an arbitrary JSON object; the handler reads
the six declared fields.  A field that is present but not a JSON number
is distinguished through `JVal` (`typeof body.max_agents === "number"`
is true only for `JVal.num`).  `none` at the request level models a
body that fails to parse (the `catch` branch). -/

inductive JVal where
  | num : Int → JVal
  | str : JStr → JVal
  | bool : Bool → JVal
  | null : JVal
deriving DecidableEq

structure WaitlistBody where
  email : Option JStr
  max_agents : Option JVal
  pain : Option JStr
  pay : Option JStr
  target_platforms : Option (List JStr)
  dev_os : Option (List JStr)
deriving DecidableEq

/-- `typeof body.max_agents === "number" ? body.max_agents : 0`. -/
def maxAgentsOf (b : WaitlistBody) : Int :=
  match b.max_agents with
  | some (JVal.num n) => n
  | _ => 0

/-- The record an accepted `POST /api/waitlist` request inserts. -/
def submittedRecord (st : StoreState) (b : WaitlistBody) (nowStr : JStr) : Submission :=
  ⟨st.nextId, (b.email.map trimJ).getD [], maxAgentsOf b,
   (b.pain.map trimJ).getD [], (b.pay.map trimJ).getD [],
   jsonArr (b.target_platforms.getD []), jsonArr (b.dev_os.getD []), nowStr⟩

/-- Required-field validation: `!email || !pain || !pay` after trim. -/
def requiredFalsy (b : WaitlistBody) : Bool :=
  jsFalsyOpt (b.email.map trimJ) || jsFalsyOpt (b.pain.map trimJ) ||
    jsFalsyOpt (b.pay.map trimJ)

/-! ### HTTP router (the worker `fetch` handler) -/

/-- `/^\/admin\/waitlist\/(\d+)$/` followed by `parseInt(m, 10)`. -/
def matchDeletePath (path : JStr) : Option Nat :=
  match stripPrefixJ (jstr "/admin/waitlist/") path with
  | none => none
  | some ds =>
      if ds ≠ [] ∧ ds.all isDigit then some (digitsVal ds) else none

structure FetchResult where
  resp : JResponse
  store : StoreState
deriving DecidableEq

/-- The `POST /api/waitlist` route body. -/
def postWaitlistRoute (body : Option WaitlistBody) (nowStr : JStr)
    (st : StoreState) : FetchResult :=
  match body with
  | none => ⟨⟨400, [], JBody.jsonErr (jstr "invalid request")⟩, st⟩
  | some b =>
    if requiredFalsy b then
      ⟨⟨400, [], JBody.jsonErr (jstr "email, pain, and pay are required")⟩, st⟩
    else
      ⟨⟨200, [], JBody.jsonOk⟩,
       submitStore st ((b.email.map trimJ).getD []) (maxAgentsOf b)
         ((b.pain.map trimJ).getD []) ((b.pay.map trimJ).getD [])
         (b.target_platforms.getD []) (b.dev_os.getD []) nowStr⟩

/-- The `DELETE /admin/waitlist/{id}` route body. -/
def deleteRoute (hmac : JStr → JStr → JStr) (req : JRequest) (env : OAuthEnv)
    (now : Nat) (st : StoreState) (id : Nat) : FetchResult :=
  match verifySession hmac req env now with
  | none => ⟨⟨401, [], JBody.jsonErr (jstr "unauthorized")⟩, st⟩
  | some email =>
    if !(allowlist env).contains email then
      ⟨⟨403, [], JBody.jsonErr (jstr "forbidden")⟩, st⟩
    else
      ⟨⟨200, [], JBody.jsonOk⟩, deleteStore st id⟩

/-- The gated `GET /admin/waitlist` listing route body. -/
def adminListRoute (hmac : JStr → JStr → JStr) (req : JRequest) (env : OAuthEnv)
    (now : Nat) (st : StoreState) : FetchResult :=
  match verifySession hmac req env now with
  | none => ⟨⟨302, [(jstr "Location", req.origin ++ jstr "/auth/google")], JBody.empty⟩, st⟩
  | some _ =>
      ⟨⟨200, [(jstr "Content-Type", jstr "text/html;charset=UTF-8")],
        JBody.htmlPage (listStore st)⟩, st⟩

/-- The worker `fetch` handler.  External inputs: the parsed request
body (for the POST route), the provider exchange outcome (for the
callback route), the fresh CSRF state value `uuid` (for the login
route), and the clock (`now` in epoch seconds, `nowStr` its SQL
datetime rendering).  `none` models an uncaught exception. -/
def fetchRouter (hmac : JStr → JStr → JStr) (req : JRequest)
    (body : Option WaitlistBody) (env : OAuthEnv) (provider : ProviderResult)
    (uuid : JStr) (now : Nat) (nowStr : JStr) (st : StoreState) :
    Option FetchResult :=
  if req.path = jstr "/api/waitlist" ∧ req.method = jstr "POST" then
    some (postWaitlistRoute body nowStr st)
  else if req.path = jstr "/auth/google" ∧ req.method = jstr "GET" then
    some ⟨handleLogin env req.origin uuid, st⟩
  else if req.path = jstr "/auth/callback" ∧ req.method = jstr "GET" then
    (handleCallback hmac req env provider now).map (fun o => ⟨o.resp, st⟩)
  else if req.path = jstr "/auth/logout" ∧ req.method = jstr "GET" then
    some ⟨handleLogout, st⟩
  else if (matchDeletePath req.path).isSome ∧ req.method = jstr "DELETE" then
    some (deleteRoute hmac req env now st ((matchDeletePath req.path).getD 0))
  else if req.path = jstr "/admin/waitlist" ∧ req.method = jstr "GET" then
    some (adminListRoute hmac req env now st)
  else
    some ⟨⟨404, [], JBody.text (jstr "not found")⟩, st⟩

/-! ### SQLite schema migration (the `WaitlistDO` constructor)

A table is a column list plus rows of column/value pairs.  The
constructor creates the table when absent and then adds any of the four
newer columns missing from `PRAGMA table_info`, with their defaults. -/

inductive SqlVal where
  | int : Int → SqlVal
  | text : JStr → SqlVal
deriving DecidableEq

abbrev SqlRow := List (String × SqlVal)

structure SqlTable where
  cols : List String
  rows : List SqlRow
deriving DecidableEq

def rowLookup : SqlRow → String → Option SqlVal
  | [], _ => none
  | kv :: rest, c => if kv.1 == c then some kv.2 else rowLookup rest c

/-- `ALTER TABLE submissions ADD COLUMN c ... DEFAULT d`. -/
def addColumn (t : SqlTable) (c : String) (d : SqlVal) : SqlTable :=
  { cols := t.cols ++ [c], rows := t.rows.map (fun r => r ++ [(c, d)]) }

/-- The `CREATE TABLE IF NOT EXISTS` column list (note: `max_agents` is
absent here; it is added by the migration step below). -/
def freshSubmissionsTable : SqlTable :=
  { cols := ["id", "email", "pain", "pay", "target_platforms", "dev_os", "created_at"],
    rows := [] }

/-- The `WaitlistDO` constructor: create-if-missing, then add each
column absent from the `PRAGMA table_info` snapshot. -/
def initSubmissionsTable (existing : Option SqlTable) : SqlTable :=
  let t0 := match existing with
    | none => freshSubmissionsTable
    | some t => t
  let cols := t0.cols
  let t1 := if cols.contains "email" then t0
    else addColumn t0 "email" (SqlVal.text [])
  let t2 := if cols.contains "target_platforms" then t1
    else addColumn t1 "target_platforms" (SqlVal.text [])
  let t3 := if cols.contains "dev_os" then t2
    else addColumn t2 "dev_os" (SqlVal.text [])
  if cols.contains "max_agents" then t3
  else addColumn t3 "max_agents" (SqlVal.int 0)

/-- The four column/default pairs the migration appends to a
first-generation row. -/
def migrationDefaults : SqlRow :=
  [("email", SqlVal.text []), ("target_platforms", SqlVal.text []),
   ("dev_os", SqlVal.text []), ("max_agents", SqlVal.int 0)]

theorem b64dec_b64char : ∀ n < 64, b64dec (b64char n) = some n := by decide

theorem b64char_lt_alphabet_ne_eq : ∀ n < 64, b64char n ≠ 61 := by decide

theorem b64char_ne_dot (n : Nat) : b64char n ≠ 46 := by
  rcases lt_or_ge n 64 with h | h
  · exact (by decide : ∀ m < 64, b64char m ≠ 46) n h
  · have hd : b64alphabet.getD n 0 = 0 := by
      apply List.getD_eq_default
      have : b64alphabet.length = 64 := by decide
      omega
    unfold b64char
    rw [hd]
    decide

theorem b64encode_ne_dot : ∀ l : List Nat, ∀ c ∈ b64encode l, c ≠ 46 := by
  intro l
  induction l using b64encode.induct with
  | case1 => intro c hc; simp [b64encode] at hc
  | case2 b1 =>
      intro c hc
      simp only [b64encode, List.mem_cons, List.not_mem_nil, or_false] at hc
      rcases hc with rfl | rfl | rfl | rfl <;> first | exact b64char_ne_dot _ | decide
  | case3 b1 b2 =>
      intro c hc
      simp only [b64encode, List.mem_cons, List.not_mem_nil, or_false] at hc
      rcases hc with rfl | rfl | rfl | rfl <;> first | exact b64char_ne_dot _ | decide
  | case4 b1 b2 b3 rest ih =>
      intro c hc
      simp only [b64encode, List.mem_cons] at hc
      rcases hc with rfl | rfl | rfl | rfl | h
      · exact b64char_ne_dot _
      · exact b64char_ne_dot _
      · exact b64char_ne_dot _
      · exact b64char_ne_dot _
      · exact ih c h

theorem b64char_not_ws (n : Nat) : isB64Ws (b64char n) = false := by
  rcases lt_or_ge n 64 with h | h
  · exact (by decide : ∀ m < 64, isB64Ws (b64char m) = false) n h
  · have hd : b64alphabet.getD n 0 = 0 := by
      apply List.getD_eq_default
      have : b64alphabet.length = 64 := by decide
      omega
    unfold b64char
    rw [hd]
    decide

theorem b64encode_not_ws : ∀ l : List Nat, ∀ c ∈ b64encode l, isB64Ws c = false := by
  intro l
  induction l using b64encode.induct with
  | case1 => intro c hc; simp [b64encode] at hc
  | case2 b1 =>
      intro c hc
      simp only [b64encode, List.mem_cons, List.not_mem_nil, or_false] at hc
      rcases hc with rfl | rfl | rfl | rfl <;> first | exact b64char_not_ws _ | decide
  | case3 b1 b2 =>
      intro c hc
      simp only [b64encode, List.mem_cons, List.not_mem_nil, or_false] at hc
      rcases hc with rfl | rfl | rfl | rfl <;> first | exact b64char_not_ws _ | decide
  | case4 b1 b2 b3 rest ih =>
      intro c hc
      simp only [b64encode, List.mem_cons] at hc
      rcases hc with rfl | rfl | rfl | rfl | h
      · exact b64char_not_ws _
      · exact b64char_not_ws _
      · exact b64char_not_ws _
      · exact b64char_not_ws _
      · exact ih c h

theorem filter_keep_all (p : Nat → Bool) (l : JStr) (h : ∀ c ∈ l, p c = true) :
    l.filter p = l := by
  induction l with
  | nil => rfl
  | cons c cs ih =>
      have hc := h c (by simp)
      have ihr := ih (fun d hd => h d (by simp [hd]))
      simp only [List.filter, hc, ihr]

theorem b64strip_encode (l : List Nat) : b64strip (b64encode l) = b64encode l := by
  apply filter_keep_all
  intro c hc
  simp [b64encode_not_ws l c hc]

theorem b64encode_len_mod4 : ∀ l : List Nat, (b64encode l).length % 4 = 0 := by
  intro l
  induction l using b64encode.induct with
  | case1 => simp [b64encode]
  | case2 b1 => simp [b64encode]
  | case3 b1 b2 => simp [b64encode]
  | case4 b1 b2 b3 rest ih =>
      simp only [b64encode, List.length_cons]
      omega

theorem b64encode_eq_np : ∀ l : List Nat, b64encode l = b64encodeNP l ++ b64pad l := by
  intro l
  induction l using b64encode.induct with
  | case1 => simp [b64encode, b64encodeNP, b64pad]
  | case2 b1 => simp [b64encode, b64encodeNP, b64pad]
  | case3 b1 b2 => simp [b64encode, b64encodeNP, b64pad]
  | case4 b1 b2 b3 rest ih =>
      have hp : b64pad (b1 :: b2 :: b3 :: rest) = b64pad rest := by
        unfold b64pad
        have hlen : (b1 :: b2 :: b3 :: rest).length % 3 = rest.length % 3 := by
          simp only [List.length_cons]
          omega
        rw [hlen]
      show _ :: _ :: _ :: _ :: b64encode rest =
        (_ :: _ :: _ :: _ :: b64encodeNP rest) ++ b64pad (b1 :: b2 :: b3 :: rest)
      rw [hp, ih]
      simp

theorem b64encodeNP_ne_eqch : ∀ l : List Nat, (∀ b ∈ l, b < 256) →
    ∀ c ∈ b64encodeNP l, c ≠ 61 := by
  intro l
  induction l using b64encodeNP.induct with
  | case1 => intro _ c hc; simp [b64encodeNP] at hc
  | case2 b1 =>
      intro hb c hc
      have h1 : b1 < 256 := hb b1 (by simp)
      simp only [b64encodeNP, List.mem_cons, List.not_mem_nil, or_false] at hc
      rcases hc with rfl | rfl <;> exact b64char_lt_alphabet_ne_eq _ (by omega)
  | case3 b1 b2 =>
      intro hb c hc
      have h1 : b1 < 256 := hb b1 (by simp)
      have h2 : b2 < 256 := hb b2 (by simp)
      simp only [b64encodeNP, List.mem_cons, List.not_mem_nil, or_false] at hc
      rcases hc with rfl | rfl | rfl <;> exact b64char_lt_alphabet_ne_eq _ (by omega)
  | case4 b1 b2 b3 rest ih =>
      intro hb c hc
      have h1 : b1 < 256 := hb b1 (by simp)
      have h2 : b2 < 256 := hb b2 (by simp)
      have h3 : b3 < 256 := hb b3 (by simp)
      simp only [b64encodeNP, List.mem_cons] at hc
      rcases hc with rfl | rfl | rfl | rfl | h
      · exact b64char_lt_alphabet_ne_eq _ (by omega)
      · exact b64char_lt_alphabet_ne_eq _ (by omega)
      · exact b64char_lt_alphabet_ne_eq _ (by omega)
      · exact b64char_lt_alphabet_ne_eq _ (by omega)
      · exact ih (fun b hbm => hb b (by simp [hbm])) c h

theorem b64encodeNP_ne_nil : ∀ l : List Nat, l ≠ [] → b64encodeNP l ≠ [] := by
  intro l hl
  match l with
  | [] => exact absurd rfl hl
  | [b1] => simp [b64encodeNP]
  | [b1, b2] => simp [b64encodeNP]
  | b1 :: b2 :: b3 :: rest => simp [b64encodeNP]

theorem b64encodeNP_len_mod4 : ∀ l : List Nat, (b64encodeNP l).length % 4 ≠ 1 := by
  intro l
  induction l using b64encodeNP.induct with
  | case1 => simp [b64encodeNP]
  | case2 b1 => simp [b64encodeNP]
  | case3 b1 b2 => simp [b64encodeNP]
  | case4 b1 b2 b3 rest ih =>
      simp only [b64encodeNP, List.length_cons]
      omega

theorem b64unpad_pad2 (a : JStr) (hlen : (a ++ [61, 61]).length % 4 = 0) :
    b64unpad (a ++ [61, 61]) = a := by
  unfold b64unpad
  rw [if_pos hlen]
  have hrev : (a ++ [61, 61]).reverse = 61 :: 61 :: a.reverse := by simp
  rw [hrev]
  simp

theorem b64unpad_pad1 (a : JStr) (hne : a ≠ []) (h61 : ∀ x ∈ a, x ≠ 61)
    (hlen : (a ++ [61]).length % 4 = 0) : b64unpad (a ++ [61]) = a := by
  unfold b64unpad
  rw [if_pos hlen]
  cases hr : a.reverse with
  | nil =>
      exfalso
      apply hne
      have := congrArg List.reverse hr
      simpa using this
  | cons c rest =>
      have hc : c ≠ 61 := by
        apply h61
        have hmem : c ∈ a.reverse := by
          rw [hr]
          simp
        simpa using hmem
      have hrev : (a ++ [61]).reverse = 61 :: c :: rest := by simp [hr]
      rw [hrev]
      split
      · rename_i r heq
        simp only [List.cons.injEq] at heq
        exact absurd heq.2.1 hc
      · rename_i r heq
        simp only [List.cons.injEq] at heq
        rw [← heq.2, ← hr]
        simp
      · rename_i h1 h2
        exfalso
        exact h2 (c :: rest) rfl

theorem b64unpad_nopad (a : JStr) (h61 : ∀ x ∈ a, x ≠ 61) : b64unpad a = a := by
  unfold b64unpad
  by_cases hlen : a.length % 4 = 0
  · rw [if_pos hlen]
    cases hr : a.reverse with
    | nil => rfl
    | cons c rest =>
        have hc : c ≠ 61 := by
          apply h61
          have hmem : c ∈ a.reverse := by
            rw [hr]
            simp
          simpa using hmem
        split
        · rename_i r heq
          simp only [List.cons.injEq] at heq
          exact absurd heq.1 hc
        · rename_i r heq
          simp only [List.cons.injEq] at heq
          exact absurd heq.1 hc
        · rfl
  · rw [if_neg hlen]

theorem b64decodeNP : ∀ l : List Nat, (∀ b ∈ l, b < 256) →
    ∃ vs, sextets (b64encodeNP l) = some vs ∧ sextetsToBytes vs = some l := by
  intro l
  induction l using b64encodeNP.induct with
  | case1 => intro _; exact ⟨[], rfl, rfl⟩
  | case2 b1 =>
      intro hb
      have h1 : b1 < 256 := hb b1 (by simp)
      have e1 : b64dec (b64char (b1 / 4)) = some (b1 / 4) :=
        b64dec_b64char _ (by omega)
      have e2 : b64dec (b64char (b1 % 4 * 16)) = some (b1 % 4 * 16) :=
        b64dec_b64char _ (by omega)
      refine ⟨[b1 / 4, b1 % 4 * 16], ?_, ?_⟩
      · simp [b64encodeNP, sextets, e1, e2]
      · show sextetsToBytes [b1 / 4, b1 % 4 * 16] = some [b1]
        simp only [sextetsToBytes, Option.some.injEq, List.cons.injEq, and_true]
        omega
  | case3 b1 b2 =>
      intro hb
      have h1 : b1 < 256 := hb b1 (by simp)
      have h2 : b2 < 256 := hb b2 (by simp)
      have e1 : b64dec (b64char (b1 / 4)) = some (b1 / 4) :=
        b64dec_b64char _ (by omega)
      have e2 : b64dec (b64char (b1 % 4 * 16 + b2 / 16)) = some (b1 % 4 * 16 + b2 / 16) :=
        b64dec_b64char _ (by omega)
      have e3 : b64dec (b64char (b2 % 16 * 4)) = some (b2 % 16 * 4) :=
        b64dec_b64char _ (by omega)
      refine ⟨[b1 / 4, b1 % 4 * 16 + b2 / 16, b2 % 16 * 4], ?_, ?_⟩
      · simp [b64encodeNP, sextets, e1, e2, e3]
      · show sextetsToBytes [b1 / 4, b1 % 4 * 16 + b2 / 16, b2 % 16 * 4] = some [b1, b2]
        simp only [sextetsToBytes, Option.some.injEq, List.cons.injEq, and_true]
        constructor <;> omega
  | case4 b1 b2 b3 rest ih =>
      intro hb
      have h1 : b1 < 256 := hb b1 (by simp)
      have h2 : b2 < 256 := hb b2 (by simp)
      have h3 : b3 < 256 := hb b3 (by simp)
      have e1 : b64dec (b64char (b1 / 4)) = some (b1 / 4) :=
        b64dec_b64char _ (by omega)
      have e2 : b64dec (b64char (b1 % 4 * 16 + b2 / 16)) = some (b1 % 4 * 16 + b2 / 16) :=
        b64dec_b64char _ (by omega)
      have e3 : b64dec (b64char (b2 % 16 * 4 + b3 / 64)) = some (b2 % 16 * 4 + b3 / 64) :=
        b64dec_b64char _ (by omega)
      have e4 : b64dec (b64char (b3 % 64)) = some (b3 % 64) :=
        b64dec_b64char _ (by omega)
      obtain ⟨vs, hsx, htb⟩ := ih (fun b hbm => hb b (by simp [hbm]))
      refine ⟨b1 / 4 :: (b1 % 4 * 16 + b2 / 16) :: (b2 % 16 * 4 + b3 / 64) ::
        b3 % 64 :: vs, ?_, ?_⟩
      · simp [b64encodeNP, sextets, e1, e2, e3, e4, hsx]
      · show sextetsToBytes (_ :: _ :: _ :: _ :: vs) = some (b1 :: b2 :: b3 :: rest)
        simp only [sextetsToBytes, htb, Option.map_some', Option.some.injEq,
          List.cons.injEq]
        and_intros <;> first | omega | trivial

theorem b64decode_encode (l : List Nat) (hb : ∀ b ∈ l, b < 256) :
    b64decode (b64encode l) = some l := by
  have hnp : b64unpad (b64strip (b64encode l)) = b64encodeNP l := by
    rw [b64strip_encode]
    rw [b64encode_eq_np]
    have h3 : l.length % 3 = 0 ∨ l.length % 3 = 1 ∨ l.length % 3 = 2 := by omega
    rcases h3 with h3 | h3 | h3
    · have hp : b64pad l = [] := by
        unfold b64pad
        rw [h3]
      rw [hp, List.append_nil]
      exact b64unpad_nopad _ (b64encodeNP_ne_eqch l hb)
    · have hp : b64pad l = [61, 61] := by
        unfold b64pad
        rw [h3]
      rw [hp]
      apply b64unpad_pad2
      rw [← hp, ← b64encode_eq_np]
      exact b64encode_len_mod4 l
    · have hp : b64pad l = [61] := by
        unfold b64pad
        rw [h3]
      rw [hp]
      apply b64unpad_pad1
      · apply b64encodeNP_ne_nil
        intro hnil
        rw [hnil] at h3
        simp at h3
      · exact b64encodeNP_ne_eqch l hb
      · rw [← hp, ← b64encode_eq_np]
        exact b64encode_len_mod4 l
  unfold b64decode
  rw [hnp]
  rw [if_neg (b64encodeNP_len_mod4 l)]
  obtain ⟨vs, hsx, htb⟩ := b64decodeNP l hb
  rw [hsx]
  exact htb

theorem atobJ_btoaJ (s t : JStr) (h : btoaJ s = some t) : atobJ t = some s := by
  unfold btoaJ at h
  split at h
  · rename_i hall
    cases h
    exact b64decode_encode s (by
      intro b hb
      have := List.all_eq_true.mp hall b hb
      simpa using this)
  · cases h

theorem natDigitsAux_congr (n : Nat) : ∀ f1 f2, n < f1 → n < f2 →
    natDigitsAux f1 n = natDigitsAux f2 n := by
  induction n using Nat.strong_induction_on with
  | _ n ih =>
      intro f1 f2 h1 h2
      obtain ⟨g1, rfl⟩ : ∃ g, f1 = g + 1 := ⟨f1 - 1, by omega⟩
      obtain ⟨g2, rfl⟩ : ∃ g, f2 = g + 1 := ⟨f2 - 1, by omega⟩
      by_cases h10 : n < 10
      · simp [natDigitsAux, h10]
      · have hd : n / 10 < n := Nat.div_lt_self (by omega) (by omega)
        simp only [natDigitsAux, if_neg h10]
        rw [ih (n / 10) hd g1 g2 (by omega) (by omega)]

/-- One-step unfolding of `natDigits`. -/
theorem natDigits_eq (n : Nat) :
    natDigits n = if n < 10 then [48 + n] else natDigits (n / 10) ++ [48 + n % 10] := by
  by_cases h10 : n < 10
  · rw [if_pos h10]
    unfold natDigits
    simp [natDigitsAux, h10]
  · rw [if_neg h10]
    have hd : n / 10 < n := Nat.div_lt_self (by omega) (by omega)
    show natDigitsAux (n + 1) n = natDigitsAux (n / 10 + 1) (n / 10) ++ [48 + n % 10]
    conv_lhs => rw [natDigitsAux]
    rw [if_neg h10]
    rw [natDigitsAux_congr (n / 10) n (n / 10 + 1) hd (by omega)]

theorem natDigits_ne_nil (n : Nat) : natDigits n ≠ [] := by
  rw [natDigits_eq]
  split
  · simp
  · simp

theorem natDigits_isDigit (n : Nat) : ∀ c ∈ natDigits n, isDigit c = true := by
  induction n using Nat.strong_induction_on with
  | _ n ih =>
      intro c hc
      rw [natDigits_eq] at hc
      split at hc
      · simp at hc
        subst hc
        simp [isDigit]
        omega
      · rename_i h10
        rcases List.mem_append.mp hc with h1 | h2
        · exact ih (n / 10) (Nat.div_lt_self (by omega) (by omega)) c h1
        · simp at h2
          subst h2
          simp [isDigit]
          omega

theorem takeDigits_append (ds rest : JStr) (hds : ∀ c ∈ ds, isDigit c = true)
    (hrest : ∀ c, rest.head? = some c → isDigit c = false) :
    takeDigits (ds ++ rest) = (ds, rest) := by
  induction ds with
  | nil =>
      cases rest with
      | nil => rfl
      | cons c cs =>
          have := hrest c rfl
          simp [takeDigits, this]
  | cons c cs ih =>
      have hc : isDigit c = true := hds c (by simp)
      have ihr := ih (fun d hd => hds d (by simp [hd]))
      simp [takeDigits, hc, ihr]

theorem digitsVal_natDigits (n : Nat) : digitsVal (natDigits n) = n := by
  induction n using Nat.strong_induction_on with
  | _ n ih =>
      rw [natDigits_eq]
      split
      · simp [digitsVal]
      · rename_i h10
        unfold digitsVal
        rw [List.foldl_append]
        have hrec := ih (n / 10) (Nat.div_lt_self (by omega) (by omega))
        unfold digitsVal at hrec
        rw [hrec]
        simp
        omega

theorem natDigits_lt_256 (n : Nat) : ∀ c ∈ natDigits n, c < 256 := by
  intro c hc
  have := natDigits_isDigit n c hc
  simp [isDigit] at this
  omega

theorem hexVal_hexDigitChar : ∀ n < 16, hexVal (hexDigitChar n) = some n := by decide

theorem parseJsonString_quote (rest : JStr) :
    parseJsonString (34 :: rest) = some ([], rest) := by
  rw [parseJsonString.eq_def]
  simp

theorem parseJsonString_simple_escape (e : Nat) (rest : JStr) (he : e ≠ 117) :
    parseJsonString (92 :: e :: rest) =
      match unescapeChar e with
      | some u => (parseJsonString rest).map (fun p => (u :: p.1, p.2))
      | none => none := by
  rw [parseJsonString.eq_def]
  simp [he]

theorem parseJsonString_unicode_escape (h1 h2 h3 h4 : Nat) (rest : JStr) :
    parseJsonString (92 :: 117 :: h1 :: h2 :: h3 :: h4 :: rest) =
      match hexVal h1, hexVal h2, hexVal h3, hexVal h4 with
      | some a, some b, some c4, some d =>
          (parseJsonString rest).map
            (fun p => ((a * 4096 + b * 256 + c4 * 16 + d) :: p.1, p.2))
      | _, _, _, _ => none := by
  rw [parseJsonString.eq_def]
  simp

theorem parseJsonString_other (c : Nat) (rest : JStr) (h34 : c ≠ 34) (h92 : c ≠ 92) :
    parseJsonString (c :: rest) = (parseJsonString rest).map (fun p => (c :: p.1, p.2)) := by
  rw [parseJsonString.eq_def]
  simp [h34, h92]

theorem parseJsonString_escape (s : JStr) :
    ∀ rest, parseJsonString (escapeStr s ++ 34 :: rest) = some (s, rest) := by
  induction s with
  | nil => intro rest; simpa [escapeStr] using parseJsonString_quote rest
  | cons c cs ih =>
      intro rest
      show parseJsonString ((escapeChar c ++ escapeStr cs) ++ 34 :: rest) = _
      unfold escapeChar
      by_cases h34 : c = 34
      · subst h34
        rw [if_pos rfl]
        simp only [List.cons_append, List.nil_append]
        rw [parseJsonString_simple_escape 34 _ (by decide)]
        simp [unescapeChar, ih]
      · rw [if_neg h34]
        by_cases h92 : c = 92
        · subst h92
          rw [if_pos rfl]
          simp only [List.cons_append, List.nil_append]
          rw [parseJsonString_simple_escape 92 _ (by decide)]
          simp [unescapeChar, ih]
        · rw [if_neg h92]
          by_cases h8 : c = 8
          · subst h8
            rw [if_pos rfl]
            simp only [List.cons_append, List.nil_append]
            rw [parseJsonString_simple_escape 98 _ (by decide)]
            simp [unescapeChar, ih]
          · rw [if_neg h8]
            by_cases h9 : c = 9
            · subst h9
              rw [if_pos rfl]
              simp only [List.cons_append, List.nil_append]
              rw [parseJsonString_simple_escape 116 _ (by decide)]
              simp [unescapeChar, ih]
            · rw [if_neg h9]
              by_cases h10 : c = 10
              · subst h10
                rw [if_pos rfl]
                simp only [List.cons_append, List.nil_append]
                rw [parseJsonString_simple_escape 110 _ (by decide)]
                simp [unescapeChar, ih]
              · rw [if_neg h10]
                by_cases h12 : c = 12
                · subst h12
                  rw [if_pos rfl]
                  simp only [List.cons_append, List.nil_append]
                  rw [parseJsonString_simple_escape 102 _ (by decide)]
                  simp [unescapeChar, ih]
                · rw [if_neg h12]
                  by_cases h13 : c = 13
                  · subst h13
                    rw [if_pos rfl]
                    simp only [List.cons_append, List.nil_append]
                    rw [parseJsonString_simple_escape 114 _ (by decide)]
                    simp [unescapeChar, ih]
                  · rw [if_neg h13]
                    by_cases hc32 : c < 32
                    · rw [if_pos hc32]
                      have e1 : hexVal (hexDigitChar (c / 16)) = some (c / 16) :=
                        hexVal_hexDigitChar _ (by omega)
                      have e2 : hexVal (hexDigitChar (c % 16)) = some (c % 16) :=
                        hexVal_hexDigitChar _ (by omega)
                      have e48 : hexVal 48 = some 0 := by decide
                      simp only [List.cons_append, List.nil_append]
                      rw [parseJsonString_unicode_escape]
                      rw [e1, e2, e48]
                      simp [ih]
                      omega
                    · rw [if_neg hc32]
                      simp only [List.cons_append, List.nil_append]
                      rw [parseJsonString_other c _ h34 h92]
                      simp [ih]

theorem stripPrefixJ_append (p t : JStr) : stripPrefixJ p (p ++ t) = some t := by
  induction p with
  | nil => rfl
  | cons c cs ih => simp [stripPrefixJ, ih]

theorem parsePayload_mkPayload (email : JStr) (exp : Nat) :
    parsePayload (mkPayload email exp) = some (email, exp) := by
  unfold parsePayload mkPayload
  have h1 : jstr "\x7b\"email\":\"" ++ escapeStr email ++ jstr "\",\"exp\":" ++
      natDigits exp ++ jstr "\x7d" =
      jstr "\x7b\"email\":\"" ++ (escapeStr email ++ 34 :: (jstr ",\"exp\":" ++
        (natDigits exp ++ jstr "\x7d"))) := by
    simp [jstr]
  rw [h1, stripPrefixJ_append]
  dsimp only
  rw [parseJsonString_escape]
  dsimp only
  rw [stripPrefixJ_append]
  dsimp only
  have h2 : takeDigits (natDigits exp ++ jstr "\x7d") = (natDigits exp, jstr "\x7d") := by
    apply takeDigits_append
    · exact natDigits_isDigit exp
    · intro c hc
      simp [jstr] at hc
      subst hc
      decide
  rw [h2]
  have h3 : natDigits exp ≠ [] := natDigits_ne_nil exp
  cases hnd : natDigits exp with
  | nil => exact absurd hnd h3
  | cons d ds =>
      dsimp only
      rw [if_pos rfl]
      rw [← hnd, digitsVal_natDigits]

theorem escapeChar_lt_256 (e : Nat) (he : e < 256) : ∀ c ∈ escapeChar e, c < 256 := by
  intro c hc
  unfold escapeChar at hc
  by_cases h1 : e = 34
  · rw [if_pos h1] at hc; simp at hc; omega
  · rw [if_neg h1] at hc
    by_cases h2 : e = 92
    · rw [if_pos h2] at hc; simp at hc; omega
    · rw [if_neg h2] at hc
      by_cases h3 : e = 8
      · rw [if_pos h3] at hc; simp at hc; omega
      · rw [if_neg h3] at hc
        by_cases h4 : e = 9
        · rw [if_pos h4] at hc; simp at hc; omega
        · rw [if_neg h4] at hc
          by_cases h5 : e = 10
          · rw [if_pos h5] at hc; simp at hc; omega
          · rw [if_neg h5] at hc
            by_cases h6 : e = 12
            · rw [if_pos h6] at hc; simp at hc; omega
            · rw [if_neg h6] at hc
              by_cases h7 : e = 13
              · rw [if_pos h7] at hc; simp at hc; omega
              · rw [if_neg h7] at hc
                by_cases h8 : e < 32
                · rw [if_pos h8] at hc
                  simp at hc
                  rcases hc with rfl | rfl | rfl | rfl | rfl <;>
                    first
                    | omega
                    | (unfold hexDigitChar; split <;> omega)
                · rw [if_neg h8] at hc
                  simp at hc
                  omega

theorem escapeStr_lt_256 (s : JStr) (h : ∀ c ∈ s, c < 256) :
    ∀ c ∈ escapeStr s, c < 256 := by
  induction s with
  | nil => simp [escapeStr]
  | cons e es ih =>
      intro c hc
      simp only [escapeStr, List.mem_append] at hc
      rcases hc with h2 | h2
      · exact escapeChar_lt_256 e (h e (by simp)) c h2
      · exact ih (fun d hd => h d (by simp [hd])) c h2

theorem mkPayload_lt_256 (email : JStr) (exp : Nat)
    (h : ∀ c ∈ email, c < 256) : ∀ c ∈ mkPayload email exp, c < 256 := by
  intro c hc
  unfold mkPayload at hc
  simp only [List.append_assoc, List.mem_append] at hc
  rcases hc with h1 | h1 | h1 | h1 | h1
  · revert h1; revert c; decide
  · exact escapeStr_lt_256 email h c h1
  · revert h1; revert c; decide
  · exact natDigits_lt_256 exp c h1
  · revert h1; revert c; decide

theorem splitFirstDot_append (l r : JStr) (hl : ∀ c ∈ l, c ≠ 46) :
    splitFirstDot (l ++ 46 :: r) = some (l, r) := by
  induction l with
  | nil => simp [splitFirstDot]
  | cons c cs ih =>
      have hc : c ≠ 46 := hl c (by simp)
      have ihr := ih (fun d hd => hl d (by simp [hd]))
      simp [splitFirstDot, hc, ihr]

/-! ## Supporting lemmas -/

theorem isPrefixOf_append_self (l r : JStr) : l.isPrefixOf (l ++ r) = true := by
  induction l with
  | nil => simp [List.isPrefixOf]
  | cons c cs ih => simp [List.isPrefixOf, ih]

theorem filter_ne_id_of_absent (l : List Submission) (id : Nat)
    (h : ∀ r ∈ l, r.id ≠ id) : l.filter (fun r => r.id != id) = l := by
  induction l with
  | nil => rfl
  | cons r rs ih =>
      have hr : (r.id != id) = true := by
        simp only [bne_iff_ne, ne_eq]
        exact h r (by simp)
      have ihr := ih (fun x hx => h x (by simp [hx]))
      simp only [List.filter, hr, ihr]

theorem deleteStore_absent (st : StoreState) (id : Nat)
    (h : ∀ r ∈ st.rows, r.id ≠ id) : deleteStore st id = st := by
  unfold deleteStore
  rw [filter_ne_id_of_absent st.rows id h]

theorem deleteStore_idem (st : StoreState) (id : Nat) :
    deleteStore (deleteStore st id) id = deleteStore st id := by
  simp [deleteStore, List.filter_filter]

theorem rowLookup_append_left (r s : SqlRow) (c : String)
    (h : c ∈ r.map Prod.fst) : rowLookup (r ++ s) c = rowLookup r c := by
  induction r with
  | nil => simp at h
  | cons kv r2 ih =>
      by_cases hc : (kv.1 == c) = true
      · rw [List.cons_append]
        simp only [rowLookup, hc, if_true]
      · have hmem : c ∈ r2.map Prod.fst := by
          simp only [List.map_cons, List.mem_cons] at h
          rcases h with h1 | h1
          · exact absurd (by simp [h1] : (kv.1 == c) = true) hc
          · exact h1
        rw [List.cons_append]
        simp only [rowLookup, hc, if_false, Bool.false_eq_true]
        exact ih hmem

theorem rowLookup_append_right (r s : SqlRow) (c : String)
    (h : c ∉ r.map Prod.fst) : rowLookup (r ++ s) c = rowLookup s c := by
  induction r with
  | nil => rfl
  | cons kv r2 ih =>
      have hc : (kv.1 == c) = false := by
        simp only [List.map_cons, List.mem_cons] at h
        simp only [beq_eq_false_iff_ne, ne_eq]
        intro heq
        exact h (Or.inl heq.symm)
      rw [List.cons_append]
      simp only [rowLookup, hc, if_false, Bool.false_eq_true]
      exact ih (by
        simp only [List.map_cons, List.mem_cons] at h
        intro hmem
        exact h (Or.inr hmem))

theorem fetchRouter_post (hmac : JStr → JStr → JStr) (req : JRequest)
    (body : Option WaitlistBody) (env : OAuthEnv) (provider : ProviderResult)
    (uuid : JStr) (now : Nat) (nowStr : JStr) (st : StoreState)
    (hp : req.path = jstr "/api/waitlist") (hm : req.method = jstr "POST") :
    fetchRouter hmac req body env provider uuid now nowStr st =
      some (postWaitlistRoute body nowStr st) := by
  unfold fetchRouter
  rw [if_pos ⟨hp, hm⟩]

theorem fetchRouter_delete (hmac : JStr → JStr → JStr) (req : JRequest)
    (body : Option WaitlistBody) (env : OAuthEnv) (provider : ProviderResult)
    (uuid : JStr) (now : Nat) (nowStr : JStr) (st : StoreState) (id : Nat)
    (hdel : matchDeletePath req.path = some id) (hm : req.method = jstr "DELETE") :
    fetchRouter hmac req body env provider uuid now nowStr st =
      some (deleteRoute hmac req env now st id) := by
  unfold fetchRouter
  rw [if_neg (by rintro ⟨-, h⟩; rw [hm] at h; exact absurd h (by decide))]
  rw [if_neg (by rintro ⟨-, h⟩; rw [hm] at h; exact absurd h (by decide))]
  rw [if_neg (by rintro ⟨-, h⟩; rw [hm] at h; exact absurd h (by decide))]
  rw [if_neg (by rintro ⟨-, h⟩; rw [hm] at h; exact absurd h (by decide))]
  rw [if_pos ⟨by rw [hdel]; rfl, hm⟩]
  rw [hdel]
  rfl

theorem fetchRouter_admin_get (hmac : JStr → JStr → JStr) (req : JRequest)
    (body : Option WaitlistBody) (env : OAuthEnv) (provider : ProviderResult)
    (uuid : JStr) (now : Nat) (nowStr : JStr) (st : StoreState)
    (hp : req.path = jstr "/admin/waitlist") (hm : req.method = jstr "GET") :
    fetchRouter hmac req body env provider uuid now nowStr st =
      some (adminListRoute hmac req env now st) := by
  unfold fetchRouter
  rw [if_neg (by rintro ⟨h, -⟩; rw [hp] at h; exact absurd h (by decide))]
  rw [if_neg (by rintro ⟨h, -⟩; rw [hp] at h; exact absurd h (by decide))]
  rw [if_neg (by rintro ⟨h, -⟩; rw [hp] at h; exact absurd h (by decide))]
  rw [if_neg (by rintro ⟨h, -⟩; rw [hp] at h; exact absurd h (by decide))]
  rw [if_neg (by rintro ⟨h, -⟩; rw [hp] at h; exact absurd h (by decide))]
  rw [if_pos ⟨hp, hm⟩]

/-! ## Claim theorems -/

/-- C3: for every identity and secret, whenever `signSession` mints a
token, `parseSession` with the same secret and a clock at most 24 hours
later returns the same identity. -/
theorem c3_mint_verify_roundtrip (hmac : JStr → JStr → JStr) (email secret : JStr)
    (now now2 : Nat) (tok : JStr)
    (hmint : signSession hmac email secret now = some tok)
    (helapse : now2 ≤ now + SESSION_MAX_AGE) :
    parseSession hmac tok secret now2 = some email := by
  unfold signSession at hmint
  cases hb : btoaJ (mkPayload email (now + SESSION_MAX_AGE)) with
  | none => rw [hb] at hmint; exact absurd hmint (by simp)
  | some p64 =>
      rw [hb] at hmint
      simp only [Option.some.injEq] at hmint
      subst hmint
      have hp64 : p64 = b64encode (mkPayload email (now + SESSION_MAX_AGE)) := by
        unfold btoaJ at hb
        split at hb
        · exact (Option.some.injEq _ _ |>.mp hb).symm
        · exact absurd hb (by simp)
      unfold parseSession
      rw [splitFirstDot_append _ _ (by rw [hp64]; exact b64encode_ne_dot _)]
      dsimp only
      rw [atobJ_btoaJ _ _ hb]
      dsimp only
      rw [if_pos rfl]
      rw [parsePayload_mkPayload]
      dsimp only
      rw [if_neg (by omega)]

/-- C3 witness: a concrete mint followed by verify one hour later. -/
theorem c3_mint_verify_roundtrip_witness :
    parseSession (fun _ _ => jstr "SIG")
      ((signSession (fun _ _ => jstr "SIG") (jstr "a@b.c") (jstr "secret") 0).getD [])
      (jstr "secret") 3600 = some (jstr "a@b.c") :=
  c3_mint_verify_roundtrip (fun _ _ => jstr "SIG") (jstr "a@b.c") (jstr "secret")
    0 3600 _ (by rfl) (by decide)

/-- C4: `handleCallback` returns 403 — before attempting any token
exchange — whenever the `code` query parameter is missing, the `state`
query parameter is missing, or `state` does not exactly equal the
CSRF-state cookie value, regardless of the provider outcome. -/
theorem c4_callback_csrf_gate (hmac : JStr → JStr → JStr) (req : JRequest)
    (env : OAuthEnv) (provider : ProviderResult) (now : Nat)
    (h : lookupQuery req.query (jstr "code") = none ∨
         lookupQuery req.query (jstr "state") = none ∨
         lookupQuery req.query (jstr "state") ≠
           getCookie req.cookieHeader (jstr "oauth_state")) :
    handleCallback hmac req env provider now =
      some ⟨⟨403, [], JBody.text (jstr "invalid oauth state")⟩, false⟩ := by
  unfold handleCallback
  have hcond : (jsFalsyOpt (lookupQuery req.query (jstr "code")) ||
      jsFalsyOpt (lookupQuery req.query (jstr "state")) ||
      (lookupQuery req.query (jstr "state") !=
        getCookie req.cookieHeader (jstr "oauth_state"))) = true := by
    rcases h with h | h | h
    · simp [h, jsFalsyOpt]
    · simp [h, jsFalsyOpt]
    · simp [bne_iff_ne, h]
  rw [if_pos hcond]

/-- C4 witness: a callback request with no query parameters is refused
with 403 and no exchange, whatever the provider would have answered. -/
theorem c4_callback_csrf_gate_witness :
    handleCallback (fun _ _ => jstr "SIG")
      ⟨jstr "GET", jstr "/auth/callback", [], [], jstr "https://caic.xyz"⟩
      ⟨jstr "cid", jstr "cs", jstr "k", jstr "admin@x"⟩
      ProviderResult.httpError 0 =
      some ⟨⟨403, [], JBody.text (jstr "invalid oauth state")⟩, false⟩ :=
  c4_callback_csrf_gate (fun _ _ => jstr "SIG")
    ⟨jstr "GET", jstr "/auth/callback", [], [], jstr "https://caic.xyz"⟩
    ⟨jstr "cid", jstr "cs", jstr "k", jstr "admin@x"⟩
    ProviderResult.httpError 0 (Or.inl rfl)

theorem setsSessionCookie_success (tok loc : JStr) :
    setsSessionCookie ⟨302,
      [(jstr "Location", loc),
       (jstr "Set-Cookie", sessionSetCookie tok),
       (jstr "Set-Cookie", clearStateSetCookie)], JBody.empty⟩ = true := by
  simp only [setsSessionCookie, List.any_cons, List.any_nil, Bool.or_false,
    Bool.or_eq_true, Bool.and_eq_true]
  right
  left
  refine ⟨by decide, ?_⟩
  unfold sessionSetCookie
  rw [List.append_assoc]
  exact isPrefixOf_append_self _ _

/-- C6: a `handleCallback` response carries the session `Set-Cookie`
exactly when it is the single 302 success response; every 403 or 502
failure response sets no session cookie. -/
theorem c6_session_cookie_only_on_success (hmac : JStr → JStr → JStr)
    (req : JRequest) (env : OAuthEnv) (provider : ProviderResult) (now : Nat)
    (out : CallbackOutcome)
    (h : handleCallback hmac req env provider now = some out) :
    setsSessionCookie out.resp = true ↔ out.resp.status = 302 := by
  unfold handleCallback at h
  split at h
  · simp only [Option.some.injEq] at h
    subst h
    simp [setsSessionCookie]
  · split at h
    · simp only [Option.some.injEq] at h
      subst h
      simp [setsSessionCookie]
    · simp only [Option.some.injEq] at h
      subst h
      simp [setsSessionCookie]
    · split at h
      · simp only [Option.some.injEq] at h
        subst h
        simp [setsSessionCookie]
      · split at h
        · simp only [Option.some.injEq] at h
          subst h
          simp [setsSessionCookie]
        · split at h
          · exact absurd h (by simp)
          · simp only [Option.some.injEq] at h
            subst h
            constructor
            · intro _
              rfl
            · intro _
              exact setsSessionCookie_success _ _

/-- C6 witness: the state-mismatch failure outcome sets no session
cookie (the iff instantiated at a 403 outcome). -/
theorem c6_session_cookie_only_on_success_witness :
    (setsSessionCookie (⟨403, [], JBody.text (jstr "invalid oauth state")⟩ : JResponse) = true ↔
      (⟨403, [], JBody.text (jstr "invalid oauth state")⟩ : JResponse).status = 302) :=
  c6_session_cookie_only_on_success (fun _ _ => jstr "SIG")
    ⟨jstr "GET", jstr "/auth/callback", [], [], jstr "https://caic.xyz"⟩
    ⟨jstr "cid", jstr "cs", jstr "k", jstr "admin@x"⟩
    ProviderResult.httpError 0
    ⟨⟨403, [], JBody.text (jstr "invalid oauth state")⟩, false⟩ (by rfl)

/-- C8: an authenticated, allowlisted `DELETE /admin/waitlist/{id}` for
an id absent from the store returns 200 `{ok:true}` and leaves the
stored records unchanged, and `delete` is idempotent: deleting the same
id twice produces the same store as deleting it once. -/
theorem c8_delete_idempotent (hmac : JStr → JStr → JStr) (req : JRequest)
    (body : Option WaitlistBody) (env : OAuthEnv) (provider : ProviderResult)
    (uuid : JStr) (now : Nat) (nowStr : JStr) (st : StoreState) (id : Nat) (e : JStr)
    (hdel : matchDeletePath req.path = some id) (hm : req.method = jstr "DELETE")
    (hauth : verifySession hmac req env now = some e)
    (hallow : (allowlist env).contains e = true)
    (habs : ∀ r ∈ st.rows, r.id ≠ id) :
    fetchRouter hmac req body env provider uuid now nowStr st =
      some ⟨⟨200, [], JBody.jsonOk⟩, st⟩
    ∧ deleteStore st id = st
    ∧ (∀ (st2 : StoreState) (id2 : Nat),
        deleteStore (deleteStore st2 id2) id2 = deleteStore st2 id2) := by
  have hds : deleteStore st id = st := deleteStore_absent st id habs
  refine ⟨?_, hds, fun st2 id2 => deleteStore_idem st2 id2⟩
  rw [fetchRouter_delete _ _ _ _ _ _ _ _ _ _ hdel hm]
  unfold deleteRoute
  rw [hauth]
  dsimp only
  rw [if_neg (by rw [hallow]; decide)]
  rw [hds]

/-- C8 witness: allowlisted admin deletes the absent id 5 from an empty
store. -/
theorem c8_delete_idempotent_witness :
    fetchRouter (fun _ _ => jstr "SIG")
      ⟨jstr "DELETE", jstr "/admin/waitlist/5", [],
        jstr "session=" ++
          (signSession (fun _ _ => jstr "SIG") (jstr "admin@x") (jstr "k") 0).getD [],
        jstr "https://caic.xyz"⟩
      none ⟨jstr "cid", jstr "cs", jstr "k", jstr "admin@x"⟩ ProviderResult.httpError
      (jstr "u") 100 (jstr "now") ⟨1, []⟩ =
      some ⟨⟨200, [], JBody.jsonOk⟩, ⟨1, []⟩⟩
    ∧ deleteStore ⟨1, []⟩ 5 = ⟨1, []⟩
    ∧ (∀ (st2 : StoreState) (id2 : Nat),
        deleteStore (deleteStore st2 id2) id2 = deleteStore st2 id2) :=
  c8_delete_idempotent (fun _ _ => jstr "SIG")
    ⟨jstr "DELETE", jstr "/admin/waitlist/5", [],
      jstr "session=" ++
        (signSession (fun _ _ => jstr "SIG") (jstr "admin@x") (jstr "k") 0).getD [],
      jstr "https://caic.xyz"⟩
    none ⟨jstr "cid", jstr "cs", jstr "k", jstr "admin@x"⟩ ProviderResult.httpError
    (jstr "u") 100 (jstr "now") ⟨1, []⟩ 5 (jstr "admin@x")
    (by rfl) rfl (by rfl) (by rfl) (by simp)

theorem fetchRouter_post_accepts (hmac : JStr → JStr → JStr) (req : JRequest)
    (env : OAuthEnv) (provider : ProviderResult) (uuid : JStr) (now : Nat)
    (nowStr : JStr) (st : StoreState) (b : WaitlistBody)
    (hp : req.path = jstr "/api/waitlist") (hm : req.method = jstr "POST")
    (hb : requiredFalsy b = false) :
    fetchRouter hmac req (some b) env provider uuid now nowStr st =
      some ⟨⟨200, [], JBody.jsonOk⟩,
        ⟨st.nextId + 1, st.rows ++ [submittedRecord st b nowStr]⟩⟩ := by
  rw [fetchRouter_post _ _ _ _ _ _ _ _ _ hp hm]
  unfold postWaitlistRoute
  dsimp only
  rw [if_neg (by simp [hb])]
  rfl

/-- C9 counterexample: a submission with `max_agents = -1` is accepted
with 200 and stored with the negative value `-1`, so not every stored
record has a non-negative `max_agents`. -/
theorem c9_counterexample :
    fetchRouter (fun _ _ => jstr "SIG")
      ⟨jstr "POST", jstr "/api/waitlist", [], [], jstr "https://caic.xyz"⟩
      (some ⟨some (jstr "a@b.c"), some (JVal.num (-1)), some (jstr "pain"),
        some (jstr "pay"), none, none⟩)
      ⟨jstr "cid", jstr "cs", jstr "k", jstr "admin@x"⟩ ProviderResult.httpError
      (jstr "u") 0 (jstr "now") ⟨1, []⟩ =
      some ⟨⟨200, [], JBody.jsonOk⟩,
        ⟨2, [⟨1, jstr "a@b.c", -1, jstr "pain", jstr "pay", jstr "[]", jstr "[]",
          jstr "now"⟩]⟩⟩
    ∧ (-1 : Int) < 0 :=
  ⟨by rfl, by decide⟩

/-- C9 (amended): an accepted submission stores `max_agents` equal to
the body value whenever that field is a JSON number — negative values
included, no non-negativity is enforced — and stores 0 when the field
is absent or not a number. -/
theorem c9_stored_max_agents (hmac : JStr → JStr → JStr) (req : JRequest)
    (env : OAuthEnv) (provider : ProviderResult) (uuid : JStr) (now : Nat)
    (nowStr : JStr) (st : StoreState) (b : WaitlistBody)
    (hp : req.path = jstr "/api/waitlist") (hm : req.method = jstr "POST")
    (hb : requiredFalsy b = false) :
    fetchRouter hmac req (some b) env provider uuid now nowStr st =
      some ⟨⟨200, [], JBody.jsonOk⟩,
        ⟨st.nextId + 1, st.rows ++ [submittedRecord st b nowStr]⟩⟩
    ∧ (submittedRecord st b nowStr).max_agents = maxAgentsOf b
    ∧ (b.max_agents = none → (submittedRecord st b nowStr).max_agents = 0) := by
  refine ⟨fetchRouter_post_accepts _ _ _ _ _ _ _ _ _ hp hm hb, rfl, ?_⟩
  intro hnone
  show maxAgentsOf b = 0
  unfold maxAgentsOf
  rw [hnone]

/-- C9 amended witness: `max_agents = 7` is stored as 7. -/
theorem c9_stored_max_agents_witness :
    fetchRouter (fun _ _ => jstr "SIG")
      ⟨jstr "POST", jstr "/api/waitlist", [], [], jstr "https://caic.xyz"⟩
      (some ⟨some (jstr "a@b.c"), some (JVal.num 7), some (jstr "pain"),
        some (jstr "pay"), none, none⟩)
      ⟨jstr "cid", jstr "cs", jstr "k", jstr "admin@x"⟩ ProviderResult.httpError
      (jstr "u") 0 (jstr "now") ⟨1, []⟩ =
      some ⟨⟨200, [], JBody.jsonOk⟩,
        ⟨2, [submittedRecord ⟨1, []⟩
          ⟨some (jstr "a@b.c"), some (JVal.num 7), some (jstr "pain"),
            some (jstr "pay"), none, none⟩ (jstr "now")]⟩⟩
    ∧ (submittedRecord ⟨1, []⟩
        ⟨some (jstr "a@b.c"), some (JVal.num 7), some (jstr "pain"),
          some (jstr "pay"), none, none⟩ (jstr "now")).max_agents =
      maxAgentsOf ⟨some (jstr "a@b.c"), some (JVal.num 7), some (jstr "pain"),
        some (jstr "pay"), none, none⟩
    ∧ ((⟨some (jstr "a@b.c"), some (JVal.num 7), some (jstr "pain"),
        some (jstr "pay"), none, none⟩ : WaitlistBody).max_agents = none →
      (submittedRecord ⟨1, []⟩
        ⟨some (jstr "a@b.c"), some (JVal.num 7), some (jstr "pain"),
          some (jstr "pay"), none, none⟩ (jstr "now")).max_agents = 0) :=
  c9_stored_max_agents (fun _ _ => jstr "SIG")
    ⟨jstr "POST", jstr "/api/waitlist", [], [], jstr "https://caic.xyz"⟩
    ⟨jstr "cid", jstr "cs", jstr "k", jstr "admin@x"⟩ ProviderResult.httpError
    (jstr "u") 0 (jstr "now") ⟨1, []⟩
    ⟨some (jstr "a@b.c"), some (JVal.num 7), some (jstr "pain"),
      some (jstr "pay"), none, none⟩ rfl rfl (by rfl)

/-- C10: a parsable body with non-empty required fields whose
`max_agents` is present but not a JSON number (a string, a boolean or
null) is accepted with 200 `{ok:true}` and stored with
`max_agents = 0`, not rejected with 400. -/
theorem c10_non_numeric_max_agents (hmac : JStr → JStr → JStr) (req : JRequest)
    (env : OAuthEnv) (provider : ProviderResult) (uuid : JStr) (now : Nat)
    (nowStr : JStr) (st : StoreState) (b : WaitlistBody)
    (hp : req.path = jstr "/api/waitlist") (hm : req.method = jstr "POST")
    (hb : requiredFalsy b = false)
    (hpresent : b.max_agents ≠ none)
    (hnotnum : ∀ n : Int, b.max_agents ≠ some (JVal.num n)) :
    fetchRouter hmac req (some b) env provider uuid now nowStr st =
      some ⟨⟨200, [], JBody.jsonOk⟩,
        ⟨st.nextId + 1, st.rows ++ [submittedRecord st b nowStr]⟩⟩
    ∧ (submittedRecord st b nowStr).max_agents = 0 := by
  refine ⟨fetchRouter_post_accepts _ _ _ _ _ _ _ _ _ hp hm hb, ?_⟩
  show maxAgentsOf b = 0
  unfold maxAgentsOf
  cases hma : b.max_agents with
  | none => exact absurd hma hpresent
  | some v =>
      cases v with
      | num n => exact absurd hma (hnotnum n)
      | str s => rfl
      | bool bb => rfl
      | null => rfl

/-- C10 witness: `max_agents = "five"` (a string) is accepted and
stored as 0. -/
theorem c10_non_numeric_max_agents_witness :
    fetchRouter (fun _ _ => jstr "SIG")
      ⟨jstr "POST", jstr "/api/waitlist", [], [], jstr "https://caic.xyz"⟩
      (some ⟨some (jstr "a@b.c"), some (JVal.str (jstr "five")), some (jstr "pain"),
        some (jstr "pay"), none, none⟩)
      ⟨jstr "cid", jstr "cs", jstr "k", jstr "admin@x"⟩ ProviderResult.httpError
      (jstr "u") 0 (jstr "now") ⟨1, []⟩ =
      some ⟨⟨200, [], JBody.jsonOk⟩,
        ⟨2, [submittedRecord ⟨1, []⟩
          ⟨some (jstr "a@b.c"), some (JVal.str (jstr "five")), some (jstr "pain"),
            some (jstr "pay"), none, none⟩ (jstr "now")]⟩⟩
    ∧ (submittedRecord ⟨1, []⟩
        ⟨some (jstr "a@b.c"), some (JVal.str (jstr "five")), some (jstr "pain"),
          some (jstr "pay"), none, none⟩ (jstr "now")).max_agents = 0 :=
  c10_non_numeric_max_agents (fun _ _ => jstr "SIG")
    ⟨jstr "POST", jstr "/api/waitlist", [], [], jstr "https://caic.xyz"⟩
    ⟨jstr "cid", jstr "cs", jstr "k", jstr "admin@x"⟩ ProviderResult.httpError
    (jstr "u") 0 (jstr "now") ⟨1, []⟩
    ⟨some (jstr "a@b.c"), some (JVal.str (jstr "five")), some (jstr "pain"),
      some (jstr "pay"), none, none⟩ rfl rfl (by rfl)
    (by simp) (by intro n h; simp at h)

/-- C1 counterexample: a request to `GET /admin/waitlist` with a valid
session for `evil@x` — an identity absent from the allowlist
`admin@x` — receives the 200 listing page, not 403: the route checks
only authentication. -/
theorem c1_counterexample :
    verifySession (fun _ _ => jstr "SIG")
      ⟨jstr "GET", jstr "/admin/waitlist", [],
        jstr "session=" ++
          (signSession (fun _ _ => jstr "SIG") (jstr "evil@x") (jstr "k") 0).getD [],
        jstr "https://caic.xyz"⟩
      ⟨jstr "cid", jstr "cs", jstr "k", jstr "admin@x"⟩ 100 = some (jstr "evil@x")
    ∧ (allowlist ⟨jstr "cid", jstr "cs", jstr "k", jstr "admin@x"⟩).contains
        (jstr "evil@x") = false
    ∧ fetchRouter (fun _ _ => jstr "SIG")
        ⟨jstr "GET", jstr "/admin/waitlist", [],
          jstr "session=" ++
            (signSession (fun _ _ => jstr "SIG") (jstr "evil@x") (jstr "k") 0).getD [],
          jstr "https://caic.xyz"⟩
        none ⟨jstr "cid", jstr "cs", jstr "k", jstr "admin@x"⟩ ProviderResult.httpError
        (jstr "u") 100 (jstr "now") ⟨1, []⟩ =
      some ⟨⟨200, [(jstr "Content-Type", jstr "text/html;charset=UTF-8")],
        JBody.htmlPage []⟩, ⟨1, []⟩⟩ :=
  ⟨by rfl, by rfl, by rfl⟩

/-- C1 (amended): the allowlist is enforced with 403 on the privileged
DELETE endpoint for an authenticated non-allowlisted identity, while
`GET /admin/waitlist` checks only authentication and renders the
submissions table for any valid session, allowlisted or not (the
allowlist is enforced when the session is minted at login). -/
theorem c1_privileged_gate_amended (hmac : JStr → JStr → JStr) (env : OAuthEnv)
    (provider : ProviderResult) (uuid : JStr) (now : Nat) (nowStr : JStr)
    (st : StoreState) (reqD reqG : JRequest) (bodyD bodyG : Option WaitlistBody)
    (id : Nat) (e eG : JStr)
    (hdel : matchDeletePath reqD.path = some id) (hmD : reqD.method = jstr "DELETE")
    (hauthD : verifySession hmac reqD env now = some e)
    (hallowD : (allowlist env).contains e = false)
    (hpG : reqG.path = jstr "/admin/waitlist") (hmG : reqG.method = jstr "GET")
    (hauthG : verifySession hmac reqG env now = some eG) :
    fetchRouter hmac reqD bodyD env provider uuid now nowStr st =
      some ⟨⟨403, [], JBody.jsonErr (jstr "forbidden")⟩, st⟩
    ∧ fetchRouter hmac reqG bodyG env provider uuid now nowStr st =
      some ⟨⟨200, [(jstr "Content-Type", jstr "text/html;charset=UTF-8")],
        JBody.htmlPage (listStore st)⟩, st⟩ := by
  constructor
  · rw [fetchRouter_delete _ _ _ _ _ _ _ _ _ _ hdel hmD]
    unfold deleteRoute
    rw [hauthD]
    dsimp only
    rw [if_pos (by rw [hallowD]; rfl)]
  · rw [fetchRouter_admin_get _ _ _ _ _ _ _ _ _ hpG hmG]
    unfold adminListRoute
    rw [hauthG]

/-- C1 amended witness: the non-allowlisted `evil@x` session gets 403
on DELETE and the rendered listing on GET. -/
theorem c1_privileged_gate_amended_witness :
    fetchRouter (fun _ _ => jstr "SIG")
      ⟨jstr "DELETE", jstr "/admin/waitlist/3", [],
        jstr "session=" ++
          (signSession (fun _ _ => jstr "SIG") (jstr "evil@x") (jstr "k") 0).getD [],
        jstr "https://caic.xyz"⟩
      none ⟨jstr "cid", jstr "cs", jstr "k", jstr "admin@x"⟩ ProviderResult.httpError
      (jstr "u") 100 (jstr "now") ⟨1, []⟩ =
      some ⟨⟨403, [], JBody.jsonErr (jstr "forbidden")⟩, ⟨1, []⟩⟩
    ∧ fetchRouter (fun _ _ => jstr "SIG")
      ⟨jstr "GET", jstr "/admin/waitlist", [],
        jstr "session=" ++
          (signSession (fun _ _ => jstr "SIG") (jstr "evil@x") (jstr "k") 0).getD [],
        jstr "https://caic.xyz"⟩
      none ⟨jstr "cid", jstr "cs", jstr "k", jstr "admin@x"⟩ ProviderResult.httpError
      (jstr "u") 100 (jstr "now") ⟨1, []⟩ =
      some ⟨⟨200, [(jstr "Content-Type", jstr "text/html;charset=UTF-8")],
        JBody.htmlPage (listStore ⟨1, []⟩)⟩, ⟨1, []⟩⟩ :=
  c1_privileged_gate_amended (fun _ _ => jstr "SIG")
    ⟨jstr "cid", jstr "cs", jstr "k", jstr "admin@x"⟩ ProviderResult.httpError
    (jstr "u") 100 (jstr "now") ⟨1, []⟩
    ⟨jstr "DELETE", jstr "/admin/waitlist/3", [],
      jstr "session=" ++
        (signSession (fun _ _ => jstr "SIG") (jstr "evil@x") (jstr "k") 0).getD [],
      jstr "https://caic.xyz"⟩
    ⟨jstr "GET", jstr "/admin/waitlist", [],
      jstr "session=" ++
        (signSession (fun _ _ => jstr "SIG") (jstr "evil@x") (jstr "k") 0).getD [],
      jstr "https://caic.xyz"⟩
    none none 3 (jstr "evil@x") (jstr "evil@x")
    (by rfl) rfl (by rfl) (by rfl) rfl rfl (by rfl)

theorem initSubmissionsTable_oldSchema_cols (t : SqlTable)
    (hcols : t.cols = ["id", "pain", "pay", "created_at"]) :
    (initSubmissionsTable (some t)).cols =
      t.cols ++ ["email", "target_platforms", "dev_os", "max_agents"] := by
  unfold initSubmissionsTable
  dsimp only
  rw [hcols]
  rw [if_neg (by decide), if_neg (by decide), if_neg (by decide), if_neg (by decide)]
  simp [addColumn, hcols]

theorem initSubmissionsTable_oldSchema_rows (t : SqlTable)
    (hcols : t.cols = ["id", "pain", "pay", "created_at"]) :
    (initSubmissionsTable (some t)).rows =
      t.rows.map (fun r => r ++ migrationDefaults) := by
  unfold initSubmissionsTable
  dsimp only
  rw [hcols]
  rw [if_neg (by decide), if_neg (by decide), if_neg (by decide), if_neg (by decide)]
  simp only [addColumn, List.map_map]
  apply List.map_congr_left
  intro r _
  simp [migrationDefaults]

/-- C7: opening the store on a table written by the first schema
generation (lacking `email`, `target_platforms`, `dev_os` and
`max_agents`) adds the missing columns with their defaults without
losing rows; afterwards every row — hence everything `list()`
returns — reads `max_agents = 0` and keeps its original values in the
original columns. -/
theorem c7_schema_migration (t : SqlTable)
    (hcols : t.cols = ["id", "pain", "pay", "created_at"])
    (hkeys : ∀ r ∈ t.rows, r.map Prod.fst = t.cols) :
    (initSubmissionsTable (some t)).cols =
      ["id", "pain", "pay", "created_at", "email", "target_platforms", "dev_os",
        "max_agents"]
    ∧ (initSubmissionsTable (some t)).rows.length = t.rows.length
    ∧ (initSubmissionsTable (some t)).rows =
        t.rows.map (fun r => r ++ migrationDefaults)
    ∧ (∀ r ∈ (initSubmissionsTable (some t)).rows,
        rowLookup r "max_agents" = some (SqlVal.int 0))
    ∧ (∀ r ∈ t.rows, ∀ c ∈ t.cols,
        rowLookup (r ++ migrationDefaults) c = rowLookup r c) := by
  have hinitc := initSubmissionsTable_oldSchema_cols t hcols
  have hinit := initSubmissionsTable_oldSchema_rows t hcols
  refine ⟨?_, ?_, ?_, ?_, ?_⟩
  · rw [hinitc, hcols]
    rfl
  · rw [hinit]
    simp
  · rw [hinit]
  · intro r hr
    rw [hinit] at hr
    simp only [List.mem_map] at hr
    obtain ⟨r0, hr0, rfl⟩ := hr
    rw [rowLookup_append_right _ _ _ (by
      rw [hkeys r0 hr0, hcols]
      decide)]
    rfl
  · intro r hr c hc
    apply rowLookup_append_left
    rw [hkeys r hr]
    exact hc

/-- C7 witness: a concrete single-row first-generation table migrates
to defaulted columns with the old values preserved. -/
theorem c7_schema_migration_witness :
    (initSubmissionsTable (some ⟨["id", "pain", "pay", "created_at"],
      [[("id", SqlVal.int 1), ("pain", SqlVal.text (jstr "p")),
        ("pay", SqlVal.text (jstr "w")), ("created_at", SqlVal.text (jstr "t"))]]⟩)).cols =
      ["id", "pain", "pay", "created_at", "email", "target_platforms", "dev_os",
        "max_agents"]
    ∧ (initSubmissionsTable (some ⟨["id", "pain", "pay", "created_at"],
        [[("id", SqlVal.int 1), ("pain", SqlVal.text (jstr "p")),
          ("pay", SqlVal.text (jstr "w")), ("created_at", SqlVal.text (jstr "t"))]]⟩)).rows.length =
      ([[("id", SqlVal.int 1), ("pain", SqlVal.text (jstr "p")),
        ("pay", SqlVal.text (jstr "w")),
        ("created_at", SqlVal.text (jstr "t"))]] : List SqlRow).length
    ∧ (initSubmissionsTable (some ⟨["id", "pain", "pay", "created_at"],
        [[("id", SqlVal.int 1), ("pain", SqlVal.text (jstr "p")),
          ("pay", SqlVal.text (jstr "w")), ("created_at", SqlVal.text (jstr "t"))]]⟩)).rows =
      ([[("id", SqlVal.int 1), ("pain", SqlVal.text (jstr "p")),
        ("pay", SqlVal.text (jstr "w")), ("created_at", SqlVal.text (jstr "t"))]] :
        List SqlRow).map (fun r => r ++ migrationDefaults)
    ∧ (∀ r ∈ (initSubmissionsTable (some ⟨["id", "pain", "pay", "created_at"],
        [[("id", SqlVal.int 1), ("pain", SqlVal.text (jstr "p")),
          ("pay", SqlVal.text (jstr "w")), ("created_at", SqlVal.text (jstr "t"))]]⟩)).rows,
        rowLookup r "max_agents" = some (SqlVal.int 0))
    ∧ (∀ r ∈ ([[("id", SqlVal.int 1), ("pain", SqlVal.text (jstr "p")),
        ("pay", SqlVal.text (jstr "w")), ("created_at", SqlVal.text (jstr "t"))]] :
          List SqlRow),
        ∀ c ∈ ["id", "pain", "pay", "created_at"],
        rowLookup (r ++ migrationDefaults) c = rowLookup r c) :=
  c7_schema_migration
    ⟨["id", "pain", "pay", "created_at"],
      [[("id", SqlVal.int 1), ("pain", SqlVal.text (jstr "p")),
        ("pay", SqlVal.text (jstr "w")), ("created_at", SqlVal.text (jstr "t"))]]⟩
    rfl (by intro r hr; simp at hr; subst hr; rfl)

end Caic
